import Mathlib

/-!
# Verification of the linkerd-trust-rotator operator core

A shallow embedding, in Lean 4, of the core logic of the
`linkerd-trust-rotator.operators.infra` Go repository:

* the rollout plan model and its stable hash (`internal/rollout/helpers.go`),
* the status recorder and its diff-gated patch (`internal/status`),
* the data-plane rollout engine and its cursor / retry logic
  (`internal/rollout`),
* the plan builder (`SelectLinkerdDataPlane`),
* the trust-bundle inspector (`internal/config_map`),
* the reconcile orchestration (`internal/controller`),
* the manual StatefulSet restart-by-delete path.

Go machine integers are modelled as `Int` (no arithmetic here approaches
2^63), byte strings as `List Nat`, timestamps as `Int`, and the
Kubernetes API as explicit state / oracle functions.  Cryptographic
primitives (SHA-1, SHA-256, X.509 parsing, PEM block decoding) are kept
abstract: they enter as function parameters, and every statement about
hashing is made about the exact byte stream fed to the hash, which is
what the source controls.
-/

namespace LinkerdTrustRotator

/-! ## Workload kinds and work items (`internal/rollout`, part_001) -/

/-- `Kind` enumerates supported workload kinds in the work queue. -/
inductive Kind where
  | deployment
  | statefulSet
  | daemonSet
  | cr
deriving DecidableEq, Repr

/-- The Go string value of a `Kind` constant. -/
def Kind.str : Kind → String
  | .deployment => "Deployment"
  | .statefulSet => "StatefulSet"
  | .daemonSet => "DaemonSet"
  | .cr => "CustomResource"

/-- Rollout strategy constant `Restart = "rolloutRestart"`. -/
def StrategyRestart : String := "rolloutRestart"

/-- Rollout strategy constant `Delete = "rolloutDelete"`. -/
def StrategyDelete : String := "rolloutDelete"

/-- A typed workload object (Deployment / StatefulSet / DaemonSet) as far
as the rotator reads it.  `resourceVersion` and the status counters are
volatile fields carried by the snapshot but never hashed. -/
structure Workload where
  ns : String
  name : String
  resourceVersion : String := ""
  templateAnnos : List (String × String) := []
  labels : List (String × String) := []
  selector : List (String × String) := []
deriving DecidableEq, Repr

/-- A schemaless custom resource as far as the rotator reads it.
The four probed pod-template locations of `crHasTemplateAnnotation` are
modelled as optional annotation maps. -/
structure CRObj where
  ns : String
  name : String
  resourceVersion : String := ""
  specTemplateAnnos : Option (List (String × String)) := none
  jobTemplateAnnos : Option (List (String × String)) := none
  podTemplateAnnos : Option (List (String × String)) := none
  podsAnnos : List (List (String × String)) := []
  metaAnnos : List (String × String) := []
deriving DecidableEq, Repr

/-- `WorkItemDryRun` from part_001: the stable identifiers of an item. -/
structure WorkItemDryRun where
  kind : Kind
  ns : String
  name : String
  strategy : String
deriving DecidableEq, Repr

/-- `WorkItem` from part_001: the dry-run identifiers plus the full
object snapshots (exactly one of them is populated, matching `kind`)
and the optional vendor bump for CRs. -/
structure WorkItem where
  dryRun : WorkItemDryRun
  dep : Option Workload := none
  sts : Option Workload := none
  ds : Option Workload := none
  cr : Option CRObj := none
  bumpKey : String := ""
  bumpValue : String := ""
deriving DecidableEq, Repr

/-- `getNamespace` from helpers.go: reads the namespace from the
snapshot selected by the kind (empty string when absent, as the Go
default branch returns ""). -/
def getNamespaceW (w : WorkItem) : String :=
  match w.dryRun.kind with
  | .deployment => (w.dep.map (·.ns)).getD ""
  | .statefulSet => (w.sts.map (·.ns)).getD ""
  | .daemonSet => (w.ds.map (·.ns)).getD ""
  | .cr => (w.cr.map (·.ns)).getD ""

/-- `getName` from helpers.go. -/
def getNameW (w : WorkItem) : String :=
  match w.dryRun.kind with
  | .deployment => (w.dep.map (·.name)).getD ""
  | .statefulSet => (w.sts.map (·.name)).getD ""
  | .daemonSet => (w.ds.map (·.name)).getD ""
  | .cr => (w.cr.map (·.name)).getD ""

/-! ## The plan hash (`planHash`, helpers.go lines 100-125)

Go feeds, for each item, a sequence of bytes into a SHA-1 and returns
the first 12 hex characters.  We model the byte stream exactly, as a
list of characters (`planHashInput`), and keep SHA-1 abstract: the hash
of a queue is a function of `planHashInput` alone, so two queues with
equal inputs have equal hashes under every hash function, and the
negative statements are made about the input stream. -/

/-- The characters `planHash` writes for one work item.  Note the
faithful quirk of the source: the strategy is written only for
StatefulSet and CustomResource items, and the `key=value` bump suffix
only for CustomResource items with a nonempty bump key. -/
def itemHashChars (w : WorkItem) : List Char :=
  w.dryRun.kind.str.data ++ '|' ::
    (match w.dryRun.kind with
     | .deployment => (getNamespaceW w).data ++ '/' :: (getNameW w).data
     | .statefulSet =>
         (getNamespaceW w).data ++ '/' :: (getNameW w).data
           ++ '|' :: w.dryRun.strategy.data
     | .daemonSet => (getNamespaceW w).data ++ '/' :: (getNameW w).data
     | .cr =>
         (getNamespaceW w).data ++ '/' :: (getNameW w).data
           ++ '|' :: w.dryRun.strategy.data
           ++ (if w.bumpKey ≠ "" then
                 '|' :: w.bumpKey.data ++ '=' :: w.bumpValue.data
               else []))
    ++ ['\n']

/-- The full byte stream hashed by `planHash`. -/
def planHashInput (queue : List WorkItem) : List Char :=
  queue.flatMap itemHashChars

/-- `planHash`: truncated (12 hex chars) SHA-1 of the stream, with the
hash function abstract. -/
def planHash (sha1hex : List Char → String) (queue : List WorkItem) : String :=
  (sha1hex (planHashInput queue)).take 12

/-! ### The stable projection actually hashed -/

/-- The identifying data of an item that `planHash` commits to. -/
inductive ItemId where
  | dep (ns name : String)
  | sts (ns name strategy : String)
  | ds (ns name : String)
  | cr (ns name strategy : String) (bump : Option (String × String))
deriving DecidableEq, Repr

/-- Projection of a work item to the data `planHash` commits to. -/
def stableProj (w : WorkItem) : ItemId :=
  match w.dryRun.kind with
  | .deployment => .dep (getNamespaceW w) (getNameW w)
  | .statefulSet => .sts (getNamespaceW w) (getNameW w) w.dryRun.strategy
  | .daemonSet => .ds (getNamespaceW w) (getNameW w)
  | .cr => .cr (getNamespaceW w) (getNameW w) w.dryRun.strategy
      (if w.bumpKey ≠ "" then some (w.bumpKey, w.bumpValue) else none)

/-- Encoding of an `ItemId` as the hashed characters. -/
def encodeId : ItemId → List Char
  | .dep ns name => "Deployment".data ++ '|' :: (ns.data ++ '/' :: name.data) ++ ['\n']
  | .sts ns name strat =>
      "StatefulSet".data ++ '|' ::
        (ns.data ++ '/' :: name.data ++ '|' :: strat.data) ++ ['\n']
  | .ds ns name => "DaemonSet".data ++ '|' :: (ns.data ++ '/' :: name.data) ++ ['\n']
  | .cr ns name strat bump =>
      "CustomResource".data ++ '|' ::
        (ns.data ++ '/' :: name.data ++ '|' :: strat.data
          ++ (match bump with
              | some kv => '|' :: kv.1.data ++ '=' :: kv.2.data
              | none => [])) ++ ['\n']

theorem itemHashChars_eq_encode (w : WorkItem) :
    itemHashChars w = encodeId (stableProj w) := by
  cases h : w.dryRun.kind <;>
    simp [itemHashChars, encodeId, stableProj, h, Kind.str] <;>
    split <;> simp

theorem planHashInput_eq_encode (q : List WorkItem) :
    planHashInput q = (q.map stableProj).flatMap encodeId := by
  induction q with
  | nil => rfl
  | cons w ws ih =>
      simp [planHashInput, List.flatMap_cons, itemHashChars_eq_encode w] at *
      simpa [ih] using rfl

/-! ### Injectivity of the encoding on well-formed identifiers

Kubernetes namespaces and names cannot contain `/`, `|` or newlines,
strategies are drawn from a fixed enum, and annotation keys cannot
contain `=` past the prefix slash; the well-formedness predicate below
captures the separator-freedom the encoding relies on. -/

/-- Fields of an identifier avoid the separator characters used by the
encoding. -/
def WfId : ItemId → Prop
  | .dep ns name =>
      ('\n' ∉ ns.data ∧ '|' ∉ ns.data ∧ '/' ∉ ns.data) ∧
      ('\n' ∉ name.data ∧ '|' ∉ name.data)
  | .sts ns name strat =>
      ('\n' ∉ ns.data ∧ '|' ∉ ns.data ∧ '/' ∉ ns.data) ∧
      ('\n' ∉ name.data ∧ '|' ∉ name.data) ∧
      ('\n' ∉ strat.data ∧ '|' ∉ strat.data)
  | .ds ns name =>
      ('\n' ∉ ns.data ∧ '|' ∉ ns.data ∧ '/' ∉ ns.data) ∧
      ('\n' ∉ name.data ∧ '|' ∉ name.data)
  | .cr ns name strat bump =>
      ('\n' ∉ ns.data ∧ '|' ∉ ns.data ∧ '/' ∉ ns.data) ∧
      ('\n' ∉ name.data ∧ '|' ∉ name.data) ∧
      ('\n' ∉ strat.data ∧ '|' ∉ strat.data) ∧
      (match bump with
       | some kv => ('\n' ∉ kv.1.data ∧ '|' ∉ kv.1.data ∧ '=' ∉ kv.1.data) ∧
                    ('\n' ∉ kv.2.data)
       | none => True)

instance : DecidablePred WfId := by
  intro id
  cases id with
  | dep ns name => exact inferInstanceAs (Decidable (_ ∧ _))
  | sts ns name strat => exact inferInstanceAs (Decidable (_ ∧ _))
  | ds ns name => exact inferInstanceAs (Decidable (_ ∧ _))
  | cr ns name strat bump =>
      cases bump <;> exact inferInstanceAs (Decidable (_ ∧ _))

/-- Cancelling a separator: if neither prefix contains the separator
character, splitting at its first occurrence is unambiguous. -/
theorem append_sep_inj {c : Char} :
    ∀ {a b x y : List Char}, c ∉ a → c ∉ b →
      a ++ c :: x = b ++ c :: y → a = b ∧ x = y := by
  intro a
  induction a with
  | nil =>
      intro b x y _ hb h
      cases b with
      | nil => simpa using h
      | cons d bs =>
          simp only [List.nil_append, List.cons_append, List.cons.injEq] at h
          exact absurd (h.1 ▸ List.mem_cons_self d bs) (h.1 ▸ hb)
  | cons e as ih =>
      intro b x y ha hb h
      cases b with
      | nil =>
          simp only [List.cons_append, List.nil_append, List.cons.injEq] at h
          exact absurd (h.1 ▸ List.mem_cons_self e as) (h.1 ▸ ha)
      | cons d bs =>
          simp only [List.cons_append, List.cons.injEq] at h
          obtain ⟨hed, htl⟩ := h
          have ha' : c ∉ as := fun hm => ha (List.mem_cons_of_mem _ hm)
          have hb' : c ∉ bs := fun hm => hb (List.mem_cons_of_mem _ hm)
          obtain ⟨h1, h2⟩ := ih ha' hb' htl
          exact ⟨by simp [hed, h1], h2⟩

/-- A list equal to something containing the separator contains it. -/
theorem mem_of_eq_append_sep {c : Char} {a b y : List Char}
    (h : a = b ++ c :: y) : c ∈ a := by
  subst h; exact List.mem_append_right b (List.mem_cons_self c y)

/-- The characters of an encoded identifier before the final newline. -/
def lineChars : ItemId → List Char
  | .dep ns name => "Deployment".data ++ '|' :: ns.data ++ '/' :: name.data
  | .sts ns name strat =>
      "StatefulSet".data ++ '|' :: ns.data ++ '/' :: name.data ++ '|' :: strat.data
  | .ds ns name => "DaemonSet".data ++ '|' :: ns.data ++ '/' :: name.data
  | .cr ns name strat bump =>
      "CustomResource".data ++ '|' :: ns.data ++ '/' :: name.data
        ++ '|' :: strat.data
        ++ (match bump with
            | some kv => '|' :: kv.1.data ++ '=' :: kv.2.data
            | none => [])

theorem encodeId_eq_line (id : ItemId) :
    encodeId id = lineChars id ++ ['\n'] := by
  cases id <;> simp [encodeId, lineChars]

theorem not_mem_app {c : Char} {a b : List Char} (ha : c ∉ a) (hb : c ∉ b) :
    c ∉ a ++ b := by
  intro h
  rcases List.mem_append.mp h with h | h
  · exact ha h
  · exact hb h

theorem not_mem_cons_sep {c d : Char} (hne : c ≠ d) {b : List Char}
    (hb : c ∉ b) : c ∉ d :: b := by
  intro h
  rcases List.mem_cons.mp h with h | h
  · exact hne h
  · exact hb h

theorem newline_not_mem_lineChars {id : ItemId} (h : WfId id) :
    '\n' ∉ lineChars id := by
  cases id with
  | dep ns name =>
      obtain ⟨⟨hns, -, -⟩, ⟨hname, -⟩⟩ := h
      simp only [lineChars]
      refine not_mem_app
        (not_mem_app ?_ (not_mem_cons_sep ?_ hns))
        (not_mem_cons_sep ?_ hname) <;> decide
  | ds ns name =>
      obtain ⟨⟨hns, -, -⟩, ⟨hname, -⟩⟩ := h
      simp only [lineChars]
      refine not_mem_app
        (not_mem_app ?_ (not_mem_cons_sep ?_ hns))
        (not_mem_cons_sep ?_ hname) <;> decide
  | sts ns name strat =>
      obtain ⟨⟨hns, -, -⟩, ⟨hname, -⟩, ⟨hstrat, -⟩⟩ := h
      simp only [lineChars]
      refine not_mem_app
        (not_mem_app
          (not_mem_app ?_ (not_mem_cons_sep ?_ hns))
          (not_mem_cons_sep ?_ hname))
        (not_mem_cons_sep ?_ hstrat) <;> decide
  | cr ns name strat bump =>
      obtain ⟨⟨hns, -, -⟩, ⟨hname, -⟩, ⟨hstrat, -⟩, hbump⟩ := h
      have hb : '\n' ∉ (match bump with
          | some kv => '|' :: kv.1.data ++ '=' :: kv.2.data
          | none => ([] : List Char)) := by
        cases bump with
        | none => exact List.not_mem_nil _
        | some kv =>
            obtain ⟨⟨hk, -, -⟩, hv⟩ := hbump
            refine not_mem_cons_sep ?_
              (not_mem_app hk (not_mem_cons_sep ?_ hv)) <;> decide
      simp only [lineChars]
      refine not_mem_app
        (not_mem_app
          (not_mem_app
            (not_mem_app ?_ (not_mem_cons_sep ?_ hns))
            (not_mem_cons_sep ?_ hname))
          (not_mem_cons_sep ?_ hstrat)) hb <;> decide

/-- The kind of an identifier. -/
def idKind : ItemId → Kind
  | .dep _ _ => .deployment
  | .sts _ _ _ => .statefulSet
  | .ds _ _ => .daemonSet
  | .cr _ _ _ _ => .cr

/-- Everything after the first `|` of an encoded line (right-associated). -/
def lineBody : ItemId → List Char
  | .dep ns name => ns.data ++ '/' :: name.data
  | .sts ns name strat => ns.data ++ '/' :: (name.data ++ '|' :: strat.data)
  | .ds ns name => ns.data ++ '/' :: name.data
  | .cr ns name strat bump =>
      ns.data ++ '/' :: (name.data ++ '|' ::
        (strat.data ++ (match bump with
                        | some kv => '|' :: (kv.1.data ++ '=' :: kv.2.data)
                        | none => [])))

theorem lineChars_shape (id : ItemId) :
    lineChars id = (idKind id).str.data ++ '|' :: lineBody id := by
  cases id with
  | cr ns name strat bump =>
      cases bump <;>
        simp [lineChars, lineBody, idKind, Kind.str, List.append_assoc]
  | _ => simp [lineChars, lineBody, idKind, Kind.str, List.append_assoc]

theorem bar_not_mem_kindStr (k : Kind) : '|' ∉ k.str.data := by
  cases k <;> decide

theorem kindStr_data_inj {k1 k2 : Kind} (h : k1.str.data = k2.str.data) :
    k1 = k2 := by
  cases k1 <;> cases k2 <;> first | rfl | exact absurd h (by decide)

theorem string_data_inj {s t : String} (h : s.data = t.data) : s = t := by
  cases s; cases t; exact congrArg String.mk h

theorem lineChars_inj {id1 id2 : ItemId}
    (h1 : WfId id1) (h2 : WfId id2)
    (heq : lineChars id1 = lineChars id2) : id1 = id2 := by
  rw [lineChars_shape id1, lineChars_shape id2] at heq
  obtain ⟨hlit, hbody⟩ :=
    append_sep_inj (bar_not_mem_kindStr (idKind id1))
      (bar_not_mem_kindStr (idKind id2)) heq
  have hkind := kindStr_data_inj hlit
  cases id1 with
  | dep ns1 name1 =>
      cases id2 with
      | dep ns2 name2 =>
          obtain ⟨⟨-, -, hns1⟩, -⟩ := h1
          obtain ⟨⟨-, -, hns2⟩, -⟩ := h2
          simp only [lineBody] at hbody
          obtain ⟨ha, hb⟩ := append_sep_inj hns1 hns2 hbody
          rw [string_data_inj ha, string_data_inj hb]
      | sts _ _ _ => exact absurd hkind (by simp [idKind])
      | ds _ _ => exact absurd hkind (by simp [idKind])
      | cr _ _ _ _ => exact absurd hkind (by simp [idKind])
  | ds ns1 name1 =>
      cases id2 with
      | ds ns2 name2 =>
          obtain ⟨⟨-, -, hns1⟩, -⟩ := h1
          obtain ⟨⟨-, -, hns2⟩, -⟩ := h2
          simp only [lineBody] at hbody
          obtain ⟨ha, hb⟩ := append_sep_inj hns1 hns2 hbody
          rw [string_data_inj ha, string_data_inj hb]
      | dep _ _ => exact absurd hkind (by simp [idKind])
      | sts _ _ _ => exact absurd hkind (by simp [idKind])
      | cr _ _ _ _ => exact absurd hkind (by simp [idKind])
  | sts ns1 name1 strat1 =>
      cases id2 with
      | sts ns2 name2 strat2 =>
          obtain ⟨⟨-, -, hns1⟩, ⟨-, hname1⟩, -⟩ := h1
          obtain ⟨⟨-, -, hns2⟩, ⟨-, hname2⟩, -⟩ := h2
          simp only [lineBody] at hbody
          obtain ⟨ha, hrest⟩ := append_sep_inj hns1 hns2 hbody
          obtain ⟨hb, hc⟩ := append_sep_inj hname1 hname2 hrest
          rw [string_data_inj ha, string_data_inj hb, string_data_inj hc]
      | dep _ _ => exact absurd hkind (by simp [idKind])
      | ds _ _ => exact absurd hkind (by simp [idKind])
      | cr _ _ _ _ => exact absurd hkind (by simp [idKind])
  | cr ns1 name1 strat1 bump1 =>
      cases id2 with
      | cr ns2 name2 strat2 bump2 =>
          obtain ⟨⟨-, -, hns1⟩, ⟨-, hname1⟩, ⟨-, hstrat1⟩, hbump1⟩ := h1
          obtain ⟨⟨-, -, hns2⟩, ⟨-, hname2⟩, ⟨-, hstrat2⟩, hbump2⟩ := h2
          simp only [lineBody] at hbody
          obtain ⟨ha, hrest⟩ := append_sep_inj hns1 hns2 hbody
          obtain ⟨hb, hrest2⟩ := append_sep_inj hname1 hname2 hrest
          rw [string_data_inj ha, string_data_inj hb]
          cases bump1 with
          | none =>
              cases bump2 with
              | none =>
                  simp only [List.append_nil] at hrest2
                  rw [string_data_inj hrest2]
              | some kv2 =>
                  simp only [List.append_nil] at hrest2
                  exact absurd (mem_of_eq_append_sep hrest2) hstrat1
          | some kv1 =>
              cases bump2 with
              | none =>
                  simp only [List.append_nil] at hrest2
                  exact absurd (mem_of_eq_append_sep hrest2.symm) hstrat2
              | some kv2 =>
                  obtain ⟨⟨-, -, hk1⟩, -⟩ := hbump1
                  obtain ⟨⟨-, -, hk2⟩, -⟩ := hbump2
                  obtain ⟨hc, hrest3⟩ := append_sep_inj hstrat1 hstrat2 hrest2
                  obtain ⟨hd, he⟩ := append_sep_inj hk1 hk2 hrest3
                  rw [string_data_inj hc]
                  have : kv1 = kv2 := by
                    cases kv1; cases kv2
                    simp only [Prod.mk.injEq]
                    exact ⟨string_data_inj hd, string_data_inj he⟩
                  rw [this]
      | dep _ _ => exact absurd hkind (by simp [idKind])
      | ds _ _ => exact absurd hkind (by simp [idKind])
      | sts _ _ _ => exact absurd hkind (by simp [idKind])

theorem flatMap_encode_inj :
    ∀ {l1 l2 : List ItemId}, (∀ id ∈ l1, WfId id) → (∀ id ∈ l2, WfId id) →
      l1.flatMap encodeId = l2.flatMap encodeId → l1 = l2 := by
  intro l1
  induction l1 with
  | nil =>
      intro l2 _ _ h
      cases l2 with
      | nil => rfl
      | cons y ys =>
          rw [List.flatMap_nil, List.flatMap_cons, encodeId_eq_line] at h
          exact absurd h.symm (by simp)
  | cons x xs ih =>
      intro l2 hwf1 hwf2 h
      cases l2 with
      | nil =>
          rw [List.flatMap_nil, List.flatMap_cons, encodeId_eq_line] at h
          exact absurd h (by simp)
      | cons y ys =>
          rw [List.flatMap_cons, List.flatMap_cons, encodeId_eq_line,
            encodeId_eq_line, List.append_assoc, List.append_assoc,
            List.singleton_append, List.singleton_append] at h
          have hwx := hwf1 x (List.mem_cons_self x xs)
          have hwy := hwf2 y (List.mem_cons_self y ys)
          obtain ⟨hline, hrest⟩ :=
            append_sep_inj (newline_not_mem_lineChars hwx)
              (newline_not_mem_lineChars hwy) h
          have hxy := lineChars_inj hwx hwy hline
          have htail := ih (fun id hm => hwf1 id (List.mem_cons_of_mem _ hm))
            (fun id hm => hwf2 id (List.mem_cons_of_mem _ hm)) hrest
          rw [hxy, htail]

/-- Well-formedness of a work item: its hashed fields avoid the
separator characters of the encoding (true of every Kubernetes object:
names and namespaces are DNS labels, strategies are a fixed enum). -/
def WfItem (w : WorkItem) : Prop := WfId (stableProj w)

instance : DecidablePred WfItem := fun w =>
  inferInstanceAs (Decidable (WfId (stableProj w)))

/-- C1 (amended), main positive statement: on separator-free fields the
hashed byte stream commits to exactly the stable projection of the
queue — the kind, namespace and name of every item, the strategy of
StatefulSet and CustomResource items, the bump pair of CustomResource
items with a nonempty bump key, and the order of items — and to nothing
else (resource versions, snapshots and the other volatile fields do not
contribute). -/
theorem planHashInput_inj_on_stableProj (q q' : List WorkItem)
    (h1 : ∀ w ∈ q, WfItem w) (h2 : ∀ w ∈ q', WfItem w) :
    planHashInput q = planHashInput q' ↔
      q.map stableProj = q'.map stableProj := by
  rw [planHashInput_eq_encode, planHashInput_eq_encode]
  constructor
  · intro h
    exact flatMap_encode_inj
      (fun id hm => by
        obtain ⟨w, hw, rfl⟩ := List.mem_map.mp hm
        exact h1 w hw)
      (fun id hm => by
        obtain ⟨w, hw, rfl⟩ := List.mem_map.mp hm
        exact h2 w hw) h
  · intro h
    rw [h]

/-! ### C1: concrete refutation of the literal claim

The claim says the hash changes under any alteration of the strategy of
any item; for Deployment (and DaemonSet) items the strategy is not
written into the hashed stream, so two queues that differ exactly in a
Deployment strategy feed identical bytes to SHA-1. -/

/-- A deployment snapshot shared by the two counterexample queues. -/
def c1dep : Workload := { ns := "ns1", name := "app" }

/-- Counterexample queue A: one Deployment item, strategy rolloutRestart. -/
def c1queueA : List WorkItem :=
  [{ dryRun := ⟨.deployment, "ns1", "app", "rolloutRestart"⟩, dep := some c1dep }]

/-- Counterexample queue B: the same item with strategy rolloutDelete. -/
def c1queueB : List WorkItem :=
  [{ dryRun := ⟨.deployment, "ns1", "app", "rolloutDelete"⟩, dep := some c1dep }]

/-- C1 is false as stated: the two queues agree on every hashed byte
(so `planHash f c1queueA = planHash f c1queueB` for every hash
function `f`) yet differ in the strategy of their only item, a
Deployment. -/
theorem c1_strategy_not_hashed :
    planHashInput c1queueA = planHashInput c1queueB ∧
    c1queueA.map (·.dryRun.strategy) ≠ c1queueB.map (·.dryRun.strategy) ∧
    c1queueA.map (·.dryRun.kind) = c1queueB.map (·.dryRun.kind) ∧
    c1queueA.map getNamespaceW = c1queueB.map getNamespaceW ∧
    c1queueA.map getNameW = c1queueB.map getNameW := by
  refine ⟨rfl, ?_, rfl, rfl, rfl⟩
  decide

/-- An item equal to the one of `c1queueA` except for the volatile
resource version of its snapshot. -/
def c1queueAvol : List WorkItem :=
  [{ dryRun := ⟨.deployment, "ns1", "app", "rolloutRestart"⟩,
     dep := some { c1dep with resourceVersion := "98765" } }]

/-- Witness for the amended C1 theorem at concrete queues: a change of
a volatile field leaves the hashed stream unchanged. -/
theorem planHashInput_inj_on_stableProj_witness :
    planHashInput c1queueA = planHashInput c1queueAvol ↔
      c1queueA.map stableProj = c1queueAvol.map stableProj :=
  planHashInput_inj_on_stableProj c1queueA c1queueAvol
    (by decide) (by decide)

/-! ## The status document and the status recorder (`internal/status`,
part_003, and the API types of part_004)

Timestamps are modelled as `Int` (a `metav1.Time`); `none` models a nil
pointer, and `some 0` models a pointer to the zero time. -/

/-- `WorkRef`: stable reference to a workload in the plan. -/
structure WorkRef where
  kind : String
  ns : String
  name : String
deriving DecidableEq, Repr

/-- `RolloutCursor`: progress through the ordered queue. -/
structure RolloutCursor where
  planHash : String
  next : Int
  total : Int
  lastDone : Option WorkRef
deriving DecidableEq, Repr

/-- `RetryStatus`. -/
structure RetryStatus where
  count : Int
  lastError : String
  lastFailed : Option WorkRef
  lastErrorTime : Option Int
deriving DecidableEq, Repr

/-- `ProgressStatus`. -/
structure ProgressStatus where
  controlPlaneReady : Bool
  dataPlanePercent : Int
deriving DecidableEq, Repr

/-- `TrustStatus`. -/
structure TrustStatus where
  bundleState : Option String
  currentFP : String
  previousFP : String
deriving DecidableEq, Repr

/-- `LinkerdTrustRotationStatus`. Phases and reasons are the Go string
constants. -/
structure LTRStatus where
  phase : Option String := none
  reason : Option String := none
  message : Option String := none
  startedAt : Option Int := none
  lastUpdated : Option Int := none
  completionTime : Option Int := none
  progress : Option ProgressStatus := none
  trust : Option TrustStatus := none
  retries : Option RetryStatus := none
  cursor : Option RolloutCursor := none
  dryRunOutput : String := ""
deriving DecidableEq, Repr

/-- The comparison performed by `statusCmpOptions`: full structural
equality with the volatile `LastUpdated` field ignored. -/
def stripLU (st : LTRStatus) : LTRStatus := { st with lastUpdated := none }

/-- `ManageStatus.Patch` (part_003 lines 54-76): deep-copy the status,
apply the mutation to the copy, compare old and new ignoring
`LastUpdated`; when equal return without writing, otherwise stamp
`LastUpdated = now` and issue the patch.  The boolean records whether a
patch was issued. -/
def Patch (now : Int) (st : LTRStatus) (mutate : LTRStatus → LTRStatus) :
    LTRStatus × Bool :=
  let after := mutate st
  if stripLU st = stripLU after then (st, false)
  else ({ after with lastUpdated := some now }, true)

/-- `calcPercent` (part_003 lines 102-125).  Go rounds
`current*100.0/total` with `math.Round` (half away from zero); for the
nonnegative clamped operands this equals `(200*c + total) / (2*total)`
in exact integer arithmetic, which is what we use (the float64
computation is exact for every value reachable here). -/
def calcPercent (current total : Int) : Int :=
  if total ≤ 0 then 0
  else
    let c := if current < 0 then 0 else if current > total then total else current
    let p := (200 * c + total) / (2 * total)
    if p < 0 then 0 else if p > 100 then 100 else p

/-- `SetPhase`. -/
def SetPhase (now : Int) (st : LTRStatus)
    (phase reason message : Option String) : LTRStatus × Bool :=
  Patch now st (fun s => { s with phase, reason, message })

/-- `SetProgress`. -/
def SetProgress (now : Int) (st : LTRStatus) (cpReady : Bool)
    (current total : Option Int) : LTRStatus × Bool :=
  let percent :=
    match current, total with
    | some c, some t => calcPercent c t
    | _, _ => 0
  Patch now st (fun s =>
    { s with progress := some ⟨cpReady, percent⟩ })

/-- `SetTrustInfo`. -/
def SetTrustInfo (now : Int) (st : LTRStatus) (bundleState : Option String)
    (currentFP previousFP : String) : LTRStatus × Bool :=
  Patch now st (fun s =>
    { s with trust := some ⟨bundleState, currentFP, previousFP⟩ })

/-- `SetPlanHash`. -/
def SetPlanHash (now : Int) (st : LTRStatus) (workRef : Option WorkRef)
    (next total : Int) (hash : String) : LTRStatus × Bool :=
  Patch now st (fun s =>
    { s with cursor := some ⟨hash, next, total, workRef⟩ })

/-- `SetRetry`: `lastErrorTime` is the current time iff `count > 0` and
the error string is nonempty, otherwise a pointer to the zero time. -/
def SetRetry (now : Int) (st : LTRStatus) (workRef : Option WorkRef)
    (count : Int) (lastErr : String) : LTRStatus × Bool :=
  let t : Int := if count > 0 ∧ lastErr ≠ "" then now else 0
  Patch now st (fun s =>
    { s with retries := some ⟨count, lastErr, workRef, some t⟩ })

/-- `SetDryRunOutput`. -/
def SetDryRunOutput (now : Int) (st : LTRStatus) (dryRun : String) :
    LTRStatus × Bool :=
  Patch now st (fun s =>
    { s with phase := some "DryRun", reason := some "DryRunCompleted",
             message := some "The data-plane dry run has completed successfully",
             dryRunOutput := dryRun, progress := none })

/-- `MarkSucceeded`. -/
def MarkSucceeded (now : Int) (st : LTRStatus) (message : String) :
    LTRStatus × Bool :=
  Patch now st (fun s =>
    { s with phase := some "Succeeded", reason := some "Completed",
             message := some message, completionTime := some now })

/-- `MarkFailed`. -/
def MarkFailed (now : Int) (st : LTRStatus) (reason message : String) :
    LTRStatus × Bool :=
  Patch now st (fun s =>
    { s with phase := some "Failed", reason := some reason,
             message := some message, completionTime := some now })

/-! ### C5: the diff-gated patch contract and mutator idempotence -/

/-- C5 (amended): every mutator applies its mutation to a copy and
either skips the write (when nothing but `lastUpdated` would change)
or stamps `lastUpdated = now` and patches; and running `SetPhase` with
identical arguments twice in succession never patches on the second
call — so two runs issue at most one patch (exactly one only when the
first run changed something). -/
theorem patch_diff_gated_and_setPhase_idem (st : LTRStatus)
    (mutate : LTRStatus → LTRStatus) (t t1 t2 : Int)
    (p r m : Option String) :
    (Patch t st mutate = (st, false) ∨
      Patch t st mutate = ({ mutate st with lastUpdated := some t }, true)) ∧
    SetPhase t2 (SetPhase t1 st p r m).1 p r m =
      ((SetPhase t1 st p r m).1, false) := by
  constructor
  · by_cases h : stripLU st = stripLU (mutate st)
    · left; simp [Patch, h]
    · right; simp [Patch, h]
  · by_cases h : st.phase = p ∧ st.reason = r ∧ st.message = m <;>
      simp [SetPhase, Patch, stripLU, h]

/-- Status with the target phase triple already in place. -/
def c5st : LTRStatus :=
  { phase := some "Idle", reason := some "", message := some "w" }

/-- C5 is false as stated: when the live status already carries the
target values, running `SetPhase` twice in succession issues zero
patches, not exactly one. -/
theorem c5_two_setPhase_zero_patches :
    (SetPhase 5 c5st (some "Idle") (some "") (some "w")).2 = false ∧
    (SetPhase 6 (SetPhase 5 c5st (some "Idle") (some "") (some "w")).1
      (some "Idle") (some "") (some "w")).2 = false := by
  decide

/-! ## The data-plane rollout engine (`RestartLinkerdDataPlane`,
part_001 lines 293-487)

Per-item Kubernetes effects (annotation patches, rollout waiters, the
proxy-check job) are modelled by outcome oracles: for each item the
oracle yields `none` for success or `some msg` for the error the Go
call would return.  Status writes always succeed (the embedding has no
transport), which is the only path not modelled. -/

/-- The `WorkRef` recorded for an item (`recordFailure`/`bumpProgress`). -/
def refOf (w : WorkItem) : WorkRef :=
  ⟨w.dryRun.kind.str, getNamespaceW w, getNameW w⟩

/-- Outcome oracles for the per-item effects. -/
structure StepOracles where
  restartErr : WorkItem → Option String
  waitErr : WorkItem → Option String
  checkErr : WorkItem → Option String

/-- `runProxyCheckIfEnabled`: no-op unless the proxy check is enabled
in the spec. -/
def runProxyCheckIfEnabled (o : StepOracles) (enabled : Bool)
    (w : WorkItem) : Option String :=
  if enabled then o.checkErr w else none

/-- The first error of the per-item sequence of effects, following the
kind dispatch of the rollout loop: restart (annotation bump or manual
delete), wait, then optional proxy check.  A CustomResource item with
an empty bump key or value fails before any effect; a StatefulSet item
runs its restart+wait only under the matching strategy. -/
def itemErr (o : StepOracles) (enabled : Bool) (w : WorkItem) :
    Option String :=
  match w.dryRun.kind with
  | .daemonSet =>
      (o.restartErr w).orElse fun _ =>
        (o.waitErr w).orElse fun _ => runProxyCheckIfEnabled o enabled w
  | .deployment =>
      (o.restartErr w).orElse fun _ =>
        (o.waitErr w).orElse fun _ => runProxyCheckIfEnabled o enabled w
  | .cr =>
      if w.bumpKey = "" ∨ w.bumpValue = "" then
        some ("BumpAnnotationKey, BumpAnnotationValue is required for custom resources")
      else
        (o.restartErr w).orElse fun _ =>
          (o.waitErr w).orElse fun _ => runProxyCheckIfEnabled o enabled w
  | .statefulSet =>
      let restartPhase : Option String :=
        if w.dryRun.strategy = StrategyRestart then
          (o.restartErr w).orElse fun _ => o.waitErr w
        else if w.dryRun.strategy = StrategyDelete then o.restartErr w
        else none
      restartPhase.orElse fun _ => runProxyCheckIfEnabled o enabled w

/-- `recordFailure` (part_001 lines 342-359): read the current retry
count, store count+1 with the cause and the failing item, do not touch
the cursor, and hand the cause back. -/
def recordFailure (now : Int) (st : LTRStatus) (item : WorkItem)
    (cause : String) : LTRStatus × String :=
  let retries := match st.retries with
    | some r => r.count
    | none => 0
  ((SetRetry now st (some (refOf item)) (retries + 1) cause).1, cause)

/-- `bumpProgress` (part_001 lines 326-340): increment the processed
counter, persist the cursor at the new index with the finished item,
then persist the progress percentage. -/
def bumpProgress (now : Int) (st : LTRStatus) (hash : String)
    (total processed : Int) (done : WorkItem) : LTRStatus × Int :=
  let processed1 := processed + 1
  let st1 := (SetPlanHash now st (some (refOf done)) processed1 total hash).1
  let st2 := (SetProgress now st1 true (some processed1) (some total)).1
  (st2, processed1)

/-- The per-item loop of `RestartLinkerdDataPlane` (lines 362-472):
process items in order; on the first failing item record the failure
and stop with the error, otherwise advance the cursor after each item. -/
def runQueue (now : Int) (o : StepOracles) (enabled : Bool)
    (hash : String) (total : Int) :
    LTRStatus → Int → List WorkItem → LTRStatus × Int × Option String
  | st, processed, [] => (st, processed, none)
  | st, processed, w :: ws =>
      match itemErr o enabled w with
      | some e => ((recordFailure now st w e).1, processed, some e)
      | none =>
          let (st1, p1) := bumpProgress now st hash total processed w
          runQueue now o enabled hash total st1 p1 ws

/-- The cursor examination at the start of `RestartLinkerdDataPlane`
(lines 308-318): resume at `cursor.next` when the persisted hash
matches and `0 < next ≤ total`, otherwise initialize the cursor. -/
def dataPlaneStart (now : Int) (st : LTRStatus) (hash : String)
    (total : Int) : Int × LTRStatus :=
  match st.cursor with
  | some cur =>
      if cur.planHash = hash ∧ cur.next > 0 ∧ cur.next ≤ total then
        (cur.next, st)
      else
        (0, (SetPlanHash now st none 0 total hash).1)
  | none => (0, (SetPlanHash now st none 0 total hash).1)

/-- The retry count read by `recordFailure` (0 when no retry status). -/
def retryCount (st : LTRStatus) : Int :=
  match st.retries with
  | some r => r.count
  | none => 0

theorem setPlanHash_cursor (now : Int) (st : LTRStatus) (wr : Option WorkRef)
    (next total : Int) (hash : String) :
    (SetPlanHash now st wr next total hash).1.cursor =
      some ⟨hash, next, total, wr⟩ := by
  by_cases h : st.cursor = some ⟨hash, next, total, wr⟩ <;>
    simp [SetPlanHash, Patch, stripLU, h]

theorem setRetry_state (now : Int) (st : LTRStatus) (wr : Option WorkRef)
    (c : Int) (e : String)
    (hne : st.retries ≠ some ⟨c, e, wr, some (if c > 0 ∧ e ≠ "" then now else 0)⟩) :
    (SetRetry now st wr c e).1 =
      { st with
        retries := some ⟨c, e, wr, some (if c > 0 ∧ e ≠ "" then now else 0)⟩,
        lastUpdated := some now } := by
  simp [SetRetry, Patch, stripLU, hne]

/-- C2: at the start of a data-plane rollout, execution resumes at
`cursor.next` exactly when the persisted `cursor.planHash` equals the
freshly computed hash and `0 < next ≤ total`; in every other case
(including an absent cursor) the cursor is reset to
`{planHash, next := 0, total, lastDone := none}` and execution starts
from index 0. -/
theorem dataPlaneStart_resume (now : Int) (st : LTRStatus) (hash : String)
    (total : Int) :
    (match st.cursor with
     | some cur =>
         if cur.planHash = hash ∧ 0 < cur.next ∧ cur.next ≤ total then
           dataPlaneStart now st hash total = (cur.next, st)
         else
           (dataPlaneStart now st hash total).1 = 0 ∧
           (dataPlaneStart now st hash total).2.cursor =
             some ⟨hash, 0, total, none⟩
     | none =>
         (dataPlaneStart now st hash total).1 = 0 ∧
         (dataPlaneStart now st hash total).2.cursor =
           some ⟨hash, 0, total, none⟩) := by
  cases hc : st.cursor with
  | none => simp [dataPlaneStart, hc, setPlanHash_cursor]
  | some cur =>
      by_cases h : cur.planHash = hash ∧ 0 < cur.next ∧ cur.next ≤ total
      · simp [dataPlaneStart, hc, h]
      · simp only [h, if_false]
        constructor <;> simp [dataPlaneStart, hc, h, setPlanHash_cursor]

/-- C3: a failing item (restart, wait or verification error) makes the
loop record the failure — retry count incremented by exactly one, the
cause stored as `lastError`, the item as `lastFailed` — and return the
cause without advancing the processed counter, leaving the cursor
untouched. -/
theorem runQueue_failure_records (now : Int) (o : StepOracles)
    (enabled : Bool) (hash : String) (total : Int) (st : LTRStatus)
    (processed : Int) (w : WorkItem) (ws : List WorkItem) (e : String)
    (he : itemErr o enabled w = some e) :
    runQueue now o enabled hash total st processed (w :: ws) =
      ({ st with
         retries := some ⟨retryCount st + 1, e, some (refOf w),
           some (if retryCount st + 1 > 0 ∧ e ≠ "" then now else 0)⟩,
         lastUpdated := some now }, processed, some e) ∧
    (runQueue now o enabled hash total st processed (w :: ws)).1.cursor
      = st.cursor ∧
    retryCount (runQueue now o enabled hash total st processed (w :: ws)).1
      = retryCount st + 1 := by
  have hne : st.retries ≠ some ⟨retryCount st + 1, e, some (refOf w),
      some (if retryCount st + 1 > 0 ∧ e ≠ "" then now else 0)⟩ := by
    intro hcontra
    have h2 : retryCount st = retryCount st + 1 :=
      congrArg (fun x => match x with
        | some (r : RetryStatus) => r.count
        | none => (0 : Int)) hcontra
    omega
  have hrec : (recordFailure now st w e).1 =
      { st with
        retries := some ⟨retryCount st + 1, e, some (refOf w),
          some (if retryCount st + 1 > 0 ∧ e ≠ "" then now else 0)⟩,
        lastUpdated := some now } := by
    have : (match st.retries with
      | some r => r.count
      | none => 0) = retryCount st := rfl
    simp only [recordFailure, this]
    exact setRetry_state now st (some (refOf w)) (retryCount st + 1) e hne
  have hq : runQueue now o enabled hash total st processed (w :: ws) =
      ((recordFailure now st w e).1, processed, some e) := by
    simp [runQueue, he]
  rw [hq, hrec]
  refine ⟨rfl, rfl, ?_⟩
  simp [retryCount]

/-- A one-item queue whose restart fails, for the C3 witness. -/
def c3item : WorkItem :=
  { dryRun := ⟨.deployment, "ns1", "web", "rolloutRestart"⟩,
    dep := some { ns := "ns1", name := "web" } }

/-- Oracles where every restart fails with "boom". -/
def c3oracle : StepOracles :=
  ⟨fun _ => some "boom", fun _ => none, fun _ => none⟩

/-- Initial status for the C3 witness: a live cursor and no retries. -/
def c3st : LTRStatus := { cursor := some ⟨"h", 0, 1, none⟩ }

/-- Witness for C3 at a concrete failing item: the cursor is untouched
and the retry count goes from 0 to 1. -/
theorem runQueue_failure_records_witness :
    (runQueue 7 c3oracle true "h" 1 c3st 0 [c3item]).1.cursor = c3st.cursor ∧
    retryCount (runQueue 7 c3oracle true "h" 1 c3st 0 [c3item]).1 =
      retryCount c3st + 1 :=
  ⟨(runQueue_failure_records 7 c3oracle true "h" 1 c3st 0 c3item [] "boom" rfl).2.1,
   (runQueue_failure_records 7 c3oracle true "h" 1 c3st 0 c3item [] "boom" rfl).2.2⟩

/-! ## Generic insertion sort

Models the postcondition of the Go sort calls (`sort.SliceStable` for
StatefulSets, `sort.Strings` for fingerprints, `sort.Slice` for pods):
the output is a permutation of the input that is pairwise ordered by
the comparator.  Tie order for the unstable `sort.Slice` is
unspecified in Go; the insertion sort fixes one of the admissible
orders. -/

def insertSorted (le : α → α → Bool) (x : α) : List α → List α
  | [] => [x]
  | y :: ys => if le x y then x :: y :: ys else y :: insertSorted le x ys

def sortListBy (le : α → α → Bool) : List α → List α
  | [] => []
  | x :: xs => insertSorted le x (sortListBy le xs)

theorem mem_insertSorted (le : α → α → Bool) (x a : α) :
    ∀ l, a ∈ insertSorted le x l ↔ a = x ∨ a ∈ l := by
  intro l
  induction l with
  | nil => simp [insertSorted]
  | cons y ys ih =>
      by_cases h : le x y = true
      · simp [insertSorted, h, List.mem_cons]
      · simp only [insertSorted, if_neg h, List.mem_cons, ih]
        tauto

theorem insertSorted_perm (le : α → α → Bool) (x : α) :
    ∀ l, (insertSorted le x l).Perm (x :: l) := by
  intro l
  induction l with
  | nil => simp [insertSorted]
  | cons y ys ih =>
      by_cases h : le x y = true
      · simp [insertSorted, h]
      · simp only [insertSorted, if_neg h]
        exact (ih.cons y).trans (List.Perm.swap x y ys)

theorem sortListBy_perm (le : α → α → Bool) :
    ∀ l, (sortListBy le l).Perm l := by
  intro l
  induction l with
  | nil => simp [sortListBy]
  | cons x xs ih =>
      exact (insertSorted_perm le x (sortListBy le xs)).trans (ih.cons x)

theorem insertSorted_pairwise (le : α → α → Bool)
    (htot : ∀ a b, le a b = false → le b a = true)
    (htrans : ∀ a b c, le a b = true → le b c = true → le a c = true)
    (x : α) :
    ∀ {l}, l.Pairwise (fun a b => le a b = true) →
      (insertSorted le x l).Pairwise (fun a b => le a b = true) := by
  intro l
  induction l with
  | nil => intro _; simp [insertSorted]
  | cons y ys ih =>
      intro h
      rw [List.pairwise_cons] at h
      obtain ⟨hy, hys⟩ := h
      by_cases hxy : le x y = true
      · rw [insertSorted, if_pos hxy, List.pairwise_cons]
        refine ⟨?_, List.pairwise_cons.mpr ⟨hy, hys⟩⟩
        intro z hz
        rcases List.mem_cons.mp hz with rfl | hz
        · exact hxy
        · exact htrans x y z hxy (hy z hz)
      · rw [insertSorted, if_neg hxy, List.pairwise_cons]
        constructor
        · intro z hz
          rcases (mem_insertSorted le x z ys).mp hz with h2 | hz2
          · rw [h2]; exact htot x y (by simpa using hxy)
          · exact hy z hz2
        · exact ih hys

theorem sortListBy_pairwise (le : α → α → Bool)
    (htot : ∀ a b, le a b = false → le b a = true)
    (htrans : ∀ a b c, le a b = true → le b c = true → le a c = true) :
    ∀ l, (sortListBy le l).Pairwise (fun a b => le a b = true) := by
  intro l
  induction l with
  | nil => simp [sortListBy]
  | cons x xs ih => exact insertSorted_pairwise le htot htrans x ih

/-! ## Lexicographic string order

Go compares strings byte-lexicographically; we model the order on the
character lists (identical for the ASCII identifiers involved), which
keeps the comparator kernel-computable. -/

/-- Lexicographic less-or-equal on character lists. -/
def charListLe : List Char → List Char → Bool
  | [], _ => true
  | _ :: _, [] => false
  | a :: as, b :: bs =>
      if a.toNat < b.toNat then true
      else if b.toNat < a.toNat then false
      else charListLe as bs

/-- The Go `<=` on strings. -/
def strLe (a b : String) : Bool := charListLe a.data b.data

theorem charListLe_total :
    ∀ x y, charListLe x y = false → charListLe y x = true := by
  intro x
  induction x with
  | nil => intro y h; simp [charListLe] at h
  | cons a as ih =>
      intro y h
      cases y with
      | nil => rfl
      | cons b bs =>
          simp only [charListLe] at h ⊢
          split_ifs at h ⊢ <;>
            first
            | rfl
            | omega
            | (exact ih bs h)

theorem charListLe_trans :
    ∀ x y z, charListLe x y = true → charListLe y z = true →
      charListLe x z = true := by
  intro x
  induction x with
  | nil => intro y z _ _; rfl
  | cons a as ih =>
      intro y z hxy hyz
      cases y with
      | nil => simp [charListLe] at hxy
      | cons b bs =>
          cases z with
          | nil => simp [charListLe] at hyz
          | cons c cs =>
              simp only [charListLe] at hxy hyz ⊢
              split_ifs at hxy hyz ⊢ <;>
                first
                | rfl
                | omega
                | (exact ih bs cs hxy hyz)

/-! ## The plan builder (`SelectLinkerdDataPlane`, part_001 lines 68-237)

The cluster is a pure map from namespaces to the lists the API would
return (in API list order); custom resources are additionally keyed by
group/version/kind. -/

/-- `TargetScope` (api types). `annoBump` carries the optional
`AnnotationBump{key, value}`. -/
structure TargetScope where
  kindType : String
  allowedNamespaces : List String
  rolloutStrategy : String := ""
  apiGroup : String := ""
  kind : String := ""
  version : String := ""
  annoBump : Option (String × String) := none
deriving DecidableEq, Repr

/-- `TargetAnnotationSelector`. -/
structure TargetAnnotationSelector where
  key : String
  value : String
  targets : List TargetScope
deriving DecidableEq, Repr

/-- The listable state of the cluster. -/
structure Cluster where
  deployments : String → List Workload
  statefulSets : String → List Workload
  daemonSets : String → List Workload
  crs : String → String → String → String → List CRObj

/-- Lookup in an annotation map. -/
def lookupStr (l : List (String × String)) (k : String) : Option String :=
  (l.find? (fun p => decide (p.1 = k))).map (·.2)

/-- `hasAnnotationOnTemplate`: the pod template carries exactly
`key = val`. -/
def hasAnnoOnTemplate (w : Workload) (key val : String) : Bool :=
  match lookupStr w.templateAnnos key with
  | some v => decide (v = val)
  | none => false

/-- One probed location of `crHasTemplateAnnotation`: the key is
present and either the expected value is empty or it matches. -/
def crAnnoMatch (ann : List (String × String)) (key val : String) : Bool :=
  match lookupStr ann key with
  | some v => decide (val = "") || decide (v = val)
  | none => false

/-- `crHasTemplateAnnotation`: checks the four canonical pod-template
locations. -/
def crHasTemplateAnno (u : CRObj) (key val : String) : Bool :=
  ((u.specTemplateAnnos.map (crAnnoMatch · key val)).getD false) ||
  ((u.jobTemplateAnnos.map (crAnnoMatch · key val)).getD false) ||
  ((u.podTemplateAnnos.map (crAnnoMatch · key val)).getD false) ||
  (u.podsAnnos.any (crAnnoMatch · key val))

/-- Name-ascending comparator used for the StatefulSet stable sort. -/
def nameLe (a b : Workload) : Bool := strLe a.name b.name

/-- The work items one StatefulSet-scope emits for one namespace. -/
def stsItemsForNs (c : Cluster) (key val strat ns : String) : List WorkItem :=
  ((sortListBy nameLe (c.statefulSets ns)).filter
      (fun s => hasAnnoOnTemplate s key val)).map
    (fun s => { dryRun := ⟨.statefulSet, s.ns, s.name, strat⟩, sts := some s })

/-- `SelectLinkerdDataPlane` for one target scope.  Requires a nonempty
namespace whitelist, defaults the strategy to rolloutRestart, and
dispatches on the scope kind; only StatefulSet lists are sorted (by
name, stable) before the annotation filter. -/
def selectScope (c : Cluster) (key val : String) (scope : TargetScope) :
    Except String (List WorkItem) :=
  if scope.allowedNamespaces.isEmpty then
    .error ("targets[" ++ scope.kindType ++ "]: allowedNamespaces is required")
  else
    let strat := if scope.rolloutStrategy = "" then StrategyRestart
                 else scope.rolloutStrategy
    if scope.kindType = "DaemonSet" then
      .ok (scope.allowedNamespaces.flatMap (fun ns =>
        ((c.daemonSets ns).filter (fun d => hasAnnoOnTemplate d key val)).map
          (fun d => { dryRun := ⟨.daemonSet, d.ns, d.name, strat⟩, ds := some d })))
    else if scope.kindType = "Deployment" then
      .ok (scope.allowedNamespaces.flatMap (fun ns =>
        ((c.deployments ns).filter (fun d => hasAnnoOnTemplate d key val)).map
          (fun d => { dryRun := ⟨.deployment, d.ns, d.name, strat⟩, dep := some d })))
    else if scope.kindType = "CustomResource" then
      if scope.apiGroup = "" ∨ scope.kind = "" ∨ scope.version = "" then
        .error ("targets[" ++ scope.kindType ++
          "]: apiGroup, kind and version are required")
      else
        .ok (scope.allowedNamespaces.flatMap (fun ns =>
          ((c.crs scope.apiGroup scope.version scope.kind ns).filter
              (fun u => crHasTemplateAnno u key val)).map
            (fun u =>
              { dryRun := ⟨.cr, u.ns, u.name, strat⟩, cr := some u,
                bumpKey := (scope.annoBump.map (·.1)).getD "",
                bumpValue := (scope.annoBump.map (·.2)).getD "" })))
    else if scope.kindType = "StatefulSet" then
      .ok (scope.allowedNamespaces.flatMap (stsItemsForNs c key val strat))
    else
      .error ("unsupported kind in targets: " ++ scope.kindType)

/-- `SelectLinkerdDataPlane`: scopes processed in declaration order,
their queues appended; the first scope error aborts the selection. -/
def SelectLinkerdDataPlane (c : Cluster) (sel : TargetAnnotationSelector) :
    Except String (List WorkItem) :=
  go sel.targets
where
  go : List TargetScope → Except String (List WorkItem)
    | [] => .ok []
    | s :: rest => do
        let q ← selectScope c sel.key sel.value s
        let r ← go rest
        .ok (q ++ r)

/-! ### C4: ordering of the emitted plan -/

/-- Counterexample cluster: one namespace lists two annotated
deployments in descending name order. -/
def c4cluster : Cluster :=
  { deployments := fun ns =>
      if ns = "nsA" then
        [{ ns := "nsA", name := "bbb",
           templateAnnos := [("linkerd.io/inject", "enabled")] },
         { ns := "nsA", name := "aaa",
           templateAnnos := [("linkerd.io/inject", "enabled")] }]
      else [],
    statefulSets := fun _ => [],
    daemonSets := fun _ => [],
    crs := fun _ _ _ _ => [] }

/-- Counterexample selector: a single Deployment scope over `nsA`. -/
def c4sel : TargetAnnotationSelector :=
  ⟨"linkerd.io/inject", "enabled", [⟨"Deployment", ["nsA"], "", "", "", "", none⟩]⟩

/-- The queue the plan builder emits for `c4cluster`/`c4sel`. -/
def c4queue : List WorkItem :=
  [{ dryRun := ⟨.deployment, "nsA", "bbb", "rolloutRestart"⟩,
     dep := some { ns := "nsA", name := "bbb",
                   templateAnnos := [("linkerd.io/inject", "enabled")] } },
   { dryRun := ⟨.deployment, "nsA", "aaa", "rolloutRestart"⟩,
     dep := some { ns := "nsA", name := "aaa",
                   templateAnnos := [("linkerd.io/inject", "enabled")] } }]

/-- C4 is false as stated: Deployments (likewise DaemonSets and custom
resources) are emitted in API list order, not sorted by name — the
plan for `c4cluster` lists `bbb` before `aaa`. -/
theorem c4_deployments_keep_api_order :
    SelectLinkerdDataPlane c4cluster c4sel = .ok c4queue ∧
    c4queue.map getNameW = ["bbb", "aaa"] ∧
    ¬ List.Pairwise
        (fun a b : WorkItem => strLe (getNameW a) (getNameW b) = true)
        c4queue := by
  refine ⟨rfl, rfl, ?_⟩
  intro h
  simp only [c4queue, List.pairwise_cons] at h
  have hle := h.1 _ (List.mem_cons_self _ _)
  revert hle
  decide

/-- C4 (amended): only StatefulSet scopes sort their listing — by name,
ascending, before the annotation filter — so for every allowed
namespace the StatefulSet items of the plan appear in ascending name
order; the other kinds keep the API list order. -/
theorem selectScope_statefulSets_sorted (c : Cluster) (key val : String)
    (scope : TargetScope) (hk : scope.kindType = "StatefulSet")
    (hne : ¬ scope.allowedNamespaces.isEmpty) :
    selectScope c key val scope =
      .ok (scope.allowedNamespaces.flatMap
        (stsItemsForNs c key val
          (if scope.rolloutStrategy = "" then StrategyRestart
           else scope.rolloutStrategy))) ∧
    ∀ ns, List.Pairwise
      (fun a b => strLe (getNameW a) (getNameW b) = true)
      (stsItemsForNs c key val
        (if scope.rolloutStrategy = "" then StrategyRestart
         else scope.rolloutStrategy) ns) := by
  constructor
  · simp [selectScope, hk, hne]
  · intro ns
    have hsorted : (sortListBy nameLe (c.statefulSets ns)).Pairwise
        (fun a b => nameLe a b = true) :=
      sortListBy_pairwise nameLe
        (fun a b hf => charListLe_total _ _ hf)
        (fun a b cc h1 h2 => charListLe_trans _ _ _ h1 h2)
        (c.statefulSets ns)
    have hfilter := hsorted.filter (p := fun s => hasAnnoOnTemplate s key val)
    rw [stsItemsForNs, List.pairwise_map]
    refine hfilter.imp ?_
    intro a b hab
    simpa [nameLe, strLe, getNameW] using hab

/-- Witness for the amended C4 theorem at a concrete scope. -/
theorem selectScope_statefulSets_sorted_witness :
    selectScope c4cluster "linkerd.io/inject" "enabled"
        ⟨"StatefulSet", ["nsA"], "", "", "", "", none⟩ =
      .ok (["nsA"].flatMap
        (stsItemsForNs c4cluster "linkerd.io/inject" "enabled" "rolloutRestart")) :=
  (selectScope_statefulSets_sorted c4cluster "linkerd.io/inject" "enabled"
    ⟨"StatefulSet", ["nsA"], "", "", "", "", none⟩ rfl (by decide)).1

/-! ## The trust-bundle inspector (`internal/config_map`, part_002)

PEM block decoding, X.509 parsing and SHA-256 are cryptographic
library calls; they enter the model as abstract functions.  Hex
encoding and the whitespace trim are modelled concretely. -/

/-- A decoded PEM block (the result of repeated `pem.Decode`). -/
structure PEMBlock where
  blockType : String
  bytes : List Nat
deriving DecidableEq, Repr

/-- A parsed certificate; `raw` is its DER encoding (`cert.Raw`). -/
structure Cert where
  raw : List Nat
deriving DecidableEq, Repr

/-- The abstract cryptographic primitives of the inspector. -/
structure InspectPrims where
  pemDecodeAll : String → List PEMBlock
  parseX509 : List Nat → Option Cert
  sha256 : List Nat → List Nat

/-- One hex digit of `hex.EncodeToString` (its input is a nibble). -/
def hexDigit (n : Nat) : Char :=
  if n < 10 then Char.ofNat (48 + n) else Char.ofNat (97 + (n - 10))

/-- `hex.EncodeToString` over a byte list. -/
def hexEncode (bytes : List Nat) : List Char :=
  bytes.flatMap (fun b => [hexDigit (b % 256 / 16), hexDigit (b % 16)])

/-- `strings.ToLower(hex.EncodeToString(sha256.Sum256(der)))`. -/
def fingerprintHex (sha : List Nat → List Nat) (der : List Nat) : String :=
  String.mk ((hexEncode (sha der)).map Char.toLower)

/-- ASCII whitespace (the subset of Unicode whitespace relevant to PEM
text; `strings.TrimSpace` also trims the non-ASCII space characters,
which cannot appear in the bundles modelled here). -/
def isSpaceChar (ch : Char) : Bool :=
  decide (ch.toNat = 32) || (decide (9 ≤ ch.toNat) && decide (ch.toNat ≤ 13))

/-- `strings.TrimSpace`. -/
def trimSpace (str : String) : String :=
  String.mk (((str.data.dropWhile isSpaceChar).reverse.dropWhile
    isSpaceChar).reverse)

/-- `parsePEMCerts` (part_002 lines 95-116): walk the decoded blocks,
skip every block whose type is not CERTIFICATE, parse the rest as
X.509 and fail on the first parse error. -/
def parsePEMCerts (parse : List Nat → Option Cert) :
    List PEMBlock → Except String (List Cert)
  | [] => .ok []
  | b :: bs =>
      if b.blockType ≠ "CERTIFICATE" then parsePEMCerts parse bs
      else
        match parse b.bytes with
        | none => .error "parse x509 cert"
        | some c =>
            match parsePEMCerts parse bs with
            | .error e => .error e
            | .ok cs => .ok (c :: cs)

/-- The fixed bundle key `ca-bundle.crt`. -/
def configMapDataKey : String := "ca-bundle.crt"

/-- The inspector result (`config_map.Result`). -/
structure CMResult where
  certs : List Cert
  fps : List String
  state : String
deriving DecidableEq, Repr

/-- `LoadAndInspectCMBundle` (part_002 lines 47-92): fetch the
ConfigMap, read the bundle key, reject blank input, parse the PEM
blocks, fingerprint each certificate (sorted for stable comparisons),
and classify: one certificate is `single`, two or more `overlap`, zero
is an error. -/
def LoadAndInspectCMBundle (prims : InspectPrims)
    (getCM : String → String → Option (List (String × String)))
    (ns cmName : String) : Except String CMResult :=
  match getCM ns cmName with
  | none => .error ("configmap " ++ ns ++ "/" ++ cmName ++ " not found")
  | some data =>
      match lookupStr data configMapDataKey with
      | none =>
          .error ("configmap " ++ ns ++ "/" ++ cmName ++ " has no key " ++
            configMapDataKey)
      | some raw =>
          if trimSpace raw = "" then
            .error ("configmap " ++ ns ++ "/" ++ cmName ++ " key " ++
              configMapDataKey ++ " is empty")
          else
            match parsePEMCerts prims.parseX509 (prims.pemDecodeAll raw) with
            | .error e => .error ("parse bundle: " ++ e)
            | .ok certs =>
                let fps := sortListBy strLe
                  (certs.map (fun c => fingerprintHex prims.sha256 c.raw))
                match certs.length with
                | 0 => .error ("no CERTIFICATE blocks found in " ++ ns ++
                    "/" ++ cmName)
                | 1 => .ok ⟨certs, fps, "single"⟩
                | _ + 2 => .ok ⟨certs, fps, "overlap"⟩

/-- A string of lowercase hex digits. -/
def isLowerHexStr (s : String) : Bool :=
  s.data.all (fun ch => "0123456789abcdef".data.contains ch)

theorem sortListBy_length (le : α → α → Bool) (l : List α) :
    (sortListBy le l).length = l.length :=
  (sortListBy_perm le l).length_eq

theorem mem_sortListBy (le : α → α → Bool) (l : List α) (a : α) :
    a ∈ sortListBy le l ↔ a ∈ l :=
  (sortListBy_perm le l).mem_iff

theorem hexDigit_lower_mem :
    ∀ n, n < 16 →
      ("0123456789abcdef".data.contains (hexDigit n)) = true ∧
      Char.toLower (hexDigit n) = hexDigit n := by
  decide

theorem hexEncode_shape {ch : Char} :
    ∀ {bytes : List Nat}, ch ∈ hexEncode bytes →
      ∃ m, m < 16 ∧ ch = hexDigit m := by
  intro bytes
  induction bytes with
  | nil => intro h; cases h
  | cons b bs ih =>
      intro h
      rw [hexEncode, List.flatMap_cons] at h
      rcases List.mem_append.mp h with h | h
      · rcases List.mem_cons.mp h with h | h
        · exact ⟨b % 256 / 16, by omega, h⟩
        · rcases List.mem_cons.mp h with h | h
          · exact ⟨b % 16, by omega, h⟩
          · cases h
      · exact ih h

theorem fingerprintHex_isLowerHex (sha : List Nat → List Nat)
    (der : List Nat) : isLowerHexStr (fingerprintHex sha der) = true := by
  rw [isLowerHexStr, fingerprintHex]
  rw [List.all_eq_true]
  intro ch hch
  simp only [List.mem_map] at hch
  obtain ⟨c, hc, rfl⟩ := hch
  obtain ⟨m, hm, rfl⟩ := hexEncode_shape hc
  rw [(hexDigit_lower_mem m hm).2]
  exact (hexDigit_lower_mem m hm).1

/-- The `.ok` results of the inspector: the parsed certificates, their
sorted fingerprints, and the two-valued state. -/
theorem load_ok_shape (prims : InspectPrims)
    (getCM : String → String → Option (List (String × String)))
    (ns cmName : String) (r : CMResult)
    (hok : LoadAndInspectCMBundle prims getCM ns cmName = .ok r) :
    ∃ certs, parsePEMCerts prims.parseX509
        (prims.pemDecodeAll ((lookupStr ((getCM ns cmName).getD [])
          configMapDataKey).getD "")) = .ok certs ∧
      r = ⟨certs,
        sortListBy strLe (certs.map (fun c => fingerprintHex prims.sha256 c.raw)),
        if certs.length = 1 then "single" else "overlap"⟩ ∧
      1 ≤ certs.length := by
  unfold LoadAndInspectCMBundle at hok
  split at hok
  · cases hok
  · next data hdata =>
      split at hok
      · cases hok
      · next raw hraw =>
          split at hok
          · cases hok
          · split at hok
            · cases hok
            · next certs hcerts =>
                split at hok
                · cases hok
                · next hlen =>
                    cases hok
                    refine ⟨certs, ?_, ?_, by omega⟩
                    · rw [hdata, Option.getD_some, hraw, Option.getD_some]
                      exact hcerts
                    · simp [hlen]
                · next k hlen =>
                    cases hok
                    refine ⟨certs, ?_, ?_, by omega⟩
                    · rw [hdata, Option.getD_some, hraw, Option.getD_some]
                      exact hcerts
                    · simp [hlen]

/-- C6: the bundle inspector decodes the PEM blocks of type
CERTIFICATE (ignoring other block types), parses each as X.509,
fingerprints each with SHA-256 over the DER; a successful result holds
exactly one fingerprint per certificate, sorted, lowercase hex, with
`state = single` iff there is exactly one certificate and `overlap`
otherwise; it fails on a whitespace-only bundle, on a missing bundle
key, and when zero valid certificates are found. -/
theorem bundle_inspector_spec (prims : InspectPrims)
    (getCM : String → String → Option (List (String × String)))
    (ns nm : String) :
    (∀ r, LoadAndInspectCMBundle prims getCM ns nm = .ok r →
       r.fps.length = r.certs.length ∧
       1 ≤ r.certs.length ∧
       (r.state = "single" ↔ r.certs.length = 1) ∧
       (r.state = "overlap" ↔ 2 ≤ r.certs.length) ∧
       List.Pairwise (fun a b => strLe a b = true) r.fps ∧
       (∀ fp ∈ r.fps, isLowerHexStr fp = true) ∧
       r.fps = sortListBy strLe
         (r.certs.map (fun c => fingerprintHex prims.sha256 c.raw))) ∧
    (∀ (b : PEMBlock) (bs : List PEMBlock), b.blockType ≠ "CERTIFICATE" →
       parsePEMCerts prims.parseX509 (b :: bs) =
         parsePEMCerts prims.parseX509 bs) ∧
    (∀ data raw, getCM ns nm = some data →
       lookupStr data configMapDataKey = some raw → trimSpace raw = "" →
       LoadAndInspectCMBundle prims getCM ns nm =
         .error ("configmap " ++ ns ++ "/" ++ nm ++ " key " ++
           configMapDataKey ++ " is empty")) ∧
    (∀ data, getCM ns nm = some data →
       lookupStr data configMapDataKey = none →
       LoadAndInspectCMBundle prims getCM ns nm =
         .error ("configmap " ++ ns ++ "/" ++ nm ++ " has no key " ++
           configMapDataKey)) ∧
    (∀ data raw, getCM ns nm = some data →
       lookupStr data configMapDataKey = some raw → ¬ trimSpace raw = "" →
       parsePEMCerts prims.parseX509 (prims.pemDecodeAll raw) = .ok [] →
       LoadAndInspectCMBundle prims getCM ns nm =
         .error ("no CERTIFICATE blocks found in " ++ ns ++ "/" ++ nm)) := by
  refine ⟨?_, ?_, ?_, ?_, ?_⟩
  · intro r hok
    obtain ⟨certs, -, rfl, hlen⟩ :=
      load_ok_shape prims getCM ns nm r hok
    refine ⟨?_, hlen, ?_, ?_, ?_, ?_, rfl⟩
    · rw [sortListBy_length, List.length_map]
    · by_cases h1 : certs.length = 1 <;> simp [h1]
    · by_cases h1 : certs.length = 1 <;> simp [h1] <;> omega
    · exact sortListBy_pairwise strLe
        (fun a b hf => charListLe_total _ _ hf)
        (fun a b c h1 h2 => charListLe_trans _ _ _ h1 h2) _
    · intro fp hfp
      have := (mem_sortListBy strLe _ fp).mp hfp
      obtain ⟨c, -, rfl⟩ := List.mem_map.mp this
      exact fingerprintHex_isLowerHex prims.sha256 c.raw
  · intro b bs hb
    rw [parsePEMCerts, if_pos hb]
  · intro data raw hdata hraw hblank
    unfold LoadAndInspectCMBundle
    simp only [hdata, hraw, if_pos hblank]
  · intro data hdata hraw
    unfold LoadAndInspectCMBundle
    simp only [hdata, hraw]
  · intro data raw hdata hraw hblank hzero
    unfold LoadAndInspectCMBundle
    simp only [hdata, hraw, if_neg hblank, hzero, List.length_nil]

/-- Concrete primitives for the C6 witness: two CERTIFICATE blocks
around a non-certificate block, identity parsing and hashing. -/
def c6prims : InspectPrims :=
  { pemDecodeAll := fun _ =>
      [⟨"CERTIFICATE", [1]⟩, ⟨"COMMENT", [9]⟩, ⟨"CERTIFICATE", [2]⟩],
    parseX509 := fun bytes => some ⟨bytes⟩,
    sha256 := fun der => der }

/-- Concrete ConfigMap store for the C6 witness. -/
def c6getCM : String → String → Option (List (String × String)) :=
  fun ns nm =>
    if ns = "linkerd" ∧ nm = "linkerd-identity-trust-roots" then
      some [("ca-bundle.crt", "PEM")]
    else none

/-- The inspector result on the C6 witness input. -/
def c6result : CMResult := ⟨[⟨[1]⟩, ⟨[2]⟩], ["01", "02"], "overlap"⟩

/-- Witness for C6 at a concrete two-certificate bundle: the state is
`overlap` exactly because there are two certificates. -/
theorem bundle_inspector_spec_witness :
    c6result.state = "overlap" ↔ 2 ≤ c6result.certs.length :=
  ((bundle_inspector_spec c6prims c6getCM "linkerd"
      "linkerd-identity-trust-roots").1 c6result rfl).2.2.2.1

/-! ## The reconcile orchestration
(`internal/controller/linkerdtrustrotation_controller.go`)

The spec shape follows the API types of part_004.  External effects
(secret synchronizer, control-plane deployments, the per-item rollout
effects, YAML rendering, SHA-1) are oracles in the environment; status
writes are the concrete status-recorder model.  The action trace
records the rotation steps the reconcile performs. -/

/-- `RotationTrigger`. -/
structure TriggerSpec where
  onTrustRootsConfigMapChange : Bool
  onTrustAnchorSecretsDiff : Bool
deriving DecidableEq, Repr

/-- `ProtectionSpec`. -/
structure ProtectionSpec where
  runLinkerdCheckProxy : Bool := false
  linkerdCheckProxyImage : String := ""
  beforeRolloutDelay : Option Int := none
  retriggerRolloutAfterCleanup : Bool := false
  holdAfterCleanup : Option Int := none
  maxRolloutFailures : Int
deriving DecidableEq, Repr

/-- `LinkerdSpec`. -/
structure LinkerdSpec where
  ns : String
  trustRootsConfigMap : String
  trustAnchorSecret : String
  previousTrustAnchorSecret : String
  bootstrapPreviousSecret : Bool := false
deriving DecidableEq, Repr

/-- `LinkerdTrustRotationSpec`. -/
structure LTRSpec where
  linkerd : LinkerdSpec
  trigger : TriggerSpec
  selector : TargetAnnotationSelector
  protection : ProtectionSpec
  dryRun : Bool := false
deriving DecidableEq, Repr

/-- `secret.Result` of `EnsureTrustSecrets`. -/
structure SecretResult where
  createdPrevious : Bool := false
  currentFP : String := ""
  previousFP : String := ""
  diverged : Bool := false
deriving DecidableEq, Repr

/-- A recorded Kubernetes event. -/
structure EventRec where
  etype : String
  reason : String
  msg : String
deriving DecidableEq, Repr

/-- The rotation steps a reconcile can perform. -/
inductive RotAction where
  | deleteSecret (name : String)
  | restartControlPlane
  | dataPlaneRollout
deriving DecidableEq, Repr

/-- The oracle environment of a reconcile. -/
structure ReconcileEnv where
  prims : InspectPrims
  cluster : Cluster
  configMaps : String → String → Option (List (String × String))
  ensureTrustSecrets : Except String SecretResult
  deleteSecretErr : String → Option String
  cpSelectErr : Option String
  cpLoopErr : Option String
  step : StepOracles
  sha1hex : List Char → String
  renderDryRun : List WorkItemDryRun → String

/-- The observable outcome of one reconcile: final status, emitted
events, performed rotation steps, and the controller result (`.ok n`
is a requeue after `n` seconds, `.error` is a returned error). -/
structure ReconcileOut where
  status : LTRStatus
  events : List EventRec
  actions : List RotAction
  result : Except String Int
deriving Repr

/-- The two status writes at the start of the control-plane restart. -/
def cpStartWrites (now : Int) (st : LTRStatus) : LTRStatus :=
  (SetProgress now ((SetPhase now st (some "RollingCP")
    (some "ControlPlaneRestarting")
    (some "Starting rollout restart Linkerd control plane")).1)
    false none none).1

/-- The two status writes at the end of the control-plane restart. -/
def cpFinishWrites (now : Int) (st : LTRStatus) : LTRStatus :=
  (SetPhase now ((SetProgress now st true none none).1) (some "RollingCP")
    (some "ControlPlaneReady")
    (some "Finished restarted Linkerd control plane")).1

/-- `RestartLinkerdControlPlane` (control_plane.go): select (errors
before any status write), mark RollingCP, restart each deployment in
reverse-name order (collapsed to an outcome oracle), mark ready. -/
def RestartLinkerdControlPlane (now : Int) (env : ReconcileEnv)
    (st : LTRStatus) : LTRStatus × Option String :=
  match env.cpSelectErr with
  | some e => (st, some e)
  | none =>
      let st := cpStartWrites now st
      match env.cpLoopErr with
      | some e => (st, some e)
      | none => (cpFinishWrites now st, none)

/-- `RestartLinkerdDataPlane` (part_001 lines 293-487): select the
plan, mark RollingDP, resume or reset the cursor, run the queue from
the start index, and on success clear retries and reset the cursor. -/
def RestartLinkerdDataPlane (now : Int) (env : ReconcileEnv)
    (spec : LTRSpec) (st : LTRStatus) : LTRStatus × Option String :=
  match SelectLinkerdDataPlane env.cluster spec.selector with
  | .error e => (st, some e)
  | .ok queue =>
      let st := (SetPhase now st (some "RollingDP")
        (some "DataPlaneBatchRestarting")
        (some "Starting rollout restart Linkerd data plane")).1
      let hash := planHash env.sha1hex queue
      let total : Int := queue.length
      let (start, st) := dataPlaneStart now st hash total
      let st := (SetProgress now st true (some start) (some total)).1
      let out := runQueue now env.step spec.protection.runLinkerdCheckProxy
        hash total st start (queue.drop start.toNat)
      match out.2.2 with
      | some e => (out.1, some e)
      | none =>
          let st := (SetPhase now out.1 (some "RollingDP")
            (some "DataPlaneThresholdReached")
            (some "Finished restarted Linkerd data plane")).1
          let st := (SetRetry now st none 0 "").1
          ((SetPlanHash now st none 0 total hash).1, none)

/-- The Detecting status write at the start of the rotation tail. -/
def detectingWrite (now : Int) (spec : LTRSpec) (st : LTRStatus) : LTRStatus :=
  (SetPhase now st (some "Detecting") (some "SecretsDiverged")
    (some ("Certificate mismatch detected for Linkerd trust anchor: " ++
      spec.linkerd.trustAnchorSecret ++ " vs " ++
      spec.linkerd.previousTrustAnchorSecret))).1

/-- The rotation tail of `Reconcile` (controller lines 208-269): mark
Detecting, wait, delete the identity-issuer secret, restart the
control plane, restart the data plane, delete the previous anchor
secret, optionally hold and re-roll, then mark Succeeded. -/
def continueRotation (now : Int) (env : ReconcileEnv) (spec : LTRSpec)
    (events : List EventRec) (st : LTRStatus) : ReconcileOut :=
  let st := detectingWrite now spec st
  match env.deleteSecretErr "linkerd-identity-issuer" with
  | some e =>
      { status := st, events,
        actions := [.deleteSecret "linkerd-identity-issuer"],
        result := .error e }
  | none =>
      let acts1 : List RotAction :=
        [.deleteSecret "linkerd-identity-issuer", .restartControlPlane]
      match RestartLinkerdControlPlane now env st with
      | (st, some e) =>
          let st := (MarkFailed now st "RotationFailed" e).1
          { status := st, events, actions := acts1, result := .error e }
      | (st, none) =>
          let acts2 := acts1 ++ [RotAction.dataPlaneRollout]
          match RestartLinkerdDataPlane now env spec st with
          | (st, some e) =>
              let st := (MarkFailed now st "RotationFailed" e).1
              { status := st, events, actions := acts2, result := .error e }
          | (st, none) =>
              let acts3 := acts2 ++
                [RotAction.deleteSecret spec.linkerd.previousTrustAnchorSecret]
              match env.deleteSecretErr spec.linkerd.previousTrustAnchorSecret with
              | some e =>
                  { status := st, events, actions := acts3, result := .error e }
              | none =>
                  if spec.protection.retriggerRolloutAfterCleanup then
                    match env.ensureTrustSecrets with
                    | .error e =>
                        { status := st, events, actions := acts3,
                          result := .error e }
                    | .ok _ =>
                        let acts4 := acts3 ++ [RotAction.dataPlaneRollout]
                        match RestartLinkerdDataPlane now env spec st with
                        | (st, some e) =>
                            let st := (MarkFailed now st "RotationFailed" e).1
                            { status := st, events, actions := acts4,
                              result := .error e }
                        | (st, none) =>
                            let st := (MarkSucceeded now st
                              "Linkerd trust anchor certificate rotation completed successfully").1
                            { status := st, events, actions := acts4,
                              result := .ok 10 }
                  else
                    let st := (MarkSucceeded now st
                      "Linkerd trust anchor certificate rotation completed successfully").1
                    { status := st, events, actions := acts3, result := .ok 10 }

/-- The trigger dispatch of `Reconcile` (controller lines 102-165):
returns the status after `SetTrustInfo` and the computed bundle state,
or the error that aborts the reconcile. -/
def triggerBranch (now : Int) (env : ReconcileEnv) (spec : LTRSpec)
    (st : LTRStatus) : Except String (LTRStatus × String) :=
  if spec.trigger.onTrustAnchorSecretsDiff ∧
      ¬ spec.trigger.onTrustRootsConfigMapChange then
    match env.ensureTrustSecrets with
    | .error e => .error e
    | .ok sr =>
        let bundleStatus := if sr.diverged then "overlap" else "single"
        .ok ((SetTrustInfo now st (some bundleStatus) sr.currentFP
          sr.previousFP).1, bundleStatus)
  else if spec.trigger.onTrustRootsConfigMapChange ∧
      ¬ spec.trigger.onTrustAnchorSecretsDiff then
    match LoadAndInspectCMBundle env.prims env.configMaps spec.linkerd.ns
        spec.linkerd.trustRootsConfigMap with
    | .error e => .error e
    | .ok r =>
        let bundleStatus := if r.state = "overlap" then "overlap" else "single"
        match r.fps with
        | [f] =>
            .ok ((SetTrustInfo now st (some bundleStatus)
              ("sha256:" ++ f) ("sha256:" ++ f)).1, bundleStatus)
        | [f1, f2] =>
            .ok ((SetTrustInfo now st (some bundleStatus)
              ("sha256:" ++ f2) ("sha256:" ++ f1)).1, bundleStatus)
        | _ => .error "more than 2 or 0 fingerprints found in config map"
  else if spec.trigger.onTrustAnchorSecretsDiff ∧
      spec.trigger.onTrustRootsConfigMapChange then
    match env.ensureTrustSecrets with
    | .error e => .error e
    | .ok sr =>
        match LoadAndInspectCMBundle env.prims env.configMaps spec.linkerd.ns
            spec.linkerd.trustRootsConfigMap with
        | .error e => .error e
        | .ok r =>
            let bundleStatus :=
              if sr.diverged ∧ r.state = "overlap" then "overlap" else "single"
            .ok ((SetTrustInfo now st (some bundleStatus) sr.currentFP
              sr.previousFP).1, bundleStatus)
  else
    .error ("no rotation trigger enabled: at least one of " ++
      "trigger.onConfigMapChange or trigger.requireSecretsDivergence " ++
      "must be true")

/-- The part of `Reconcile` after the trigger dispatch (controller
lines 167-272): dry run, max-retries guard, rotation, idle requeue. -/
def afterTrigger (now : Int) (env : ReconcileEnv) (spec : LTRSpec)
    (st : LTRStatus) (bundleStatus : String) : ReconcileOut :=
  if bundleStatus = "overlap" then
    if spec.dryRun then
      match SelectLinkerdDataPlane env.cluster spec.selector with
      | .error e =>
          { status := st, events := [], actions := [], result := .error e }
      | .ok queue =>
          let st := (SetDryRunOutput now st
            (env.renderDryRun (queue.map (·.dryRun)))).1
          { status := st, events := [], actions := [], result := .ok 0 }
    else
      match st.retries with
      | some r =>
          if r.count > spec.protection.maxRolloutFailures then
            let msg := "max retry limit reached (" ++ toString r.count ++
              " > " ++ toString spec.protection.maxRolloutFailures ++
              "); stopping rollout"
            let st := (SetPhase now st (some "Failed")
              (some "ReasonMaxRetriesExceeded") (some msg)).1
            { status := st,
              events := [⟨"Warning", "MaxRetriesExceeded", msg⟩],
              actions := [], result := .ok 60 }
          else continueRotation now env spec [] st
      | none => continueRotation now env spec [] st
  else
    { status := st, events := [], actions := [], result := .ok 10 }

/-- The status after the two writes at the top of every reconcile. -/
def reconcileHead (now : Int) (st0 : LTRStatus) : LTRStatus :=
  (SetProgress now ((SetPhase now st0 (some "Idle") (some "")
    (some "Starting to watch for changes to the Linkerd trust anchor certificate")).1)
    true none none).1

/-- `Reconcile` (controller lines 70-273). -/
def Reconcile (now : Int) (env : ReconcileEnv) (spec : LTRSpec)
    (st0 : LTRStatus) : ReconcileOut :=
  let st := reconcileHead now st0
  match triggerBranch now env spec st with
  | .error e => { status := st, events := [], actions := [], result := .error e }
  | .ok (st, bundleStatus) => afterTrigger now env spec st bundleStatus

/-! ### Field lemmas for the status mutators -/

theorem setPhase_retries (now : Int) (st : LTRStatus)
    (p r m : Option String) : (SetPhase now st p r m).1.retries = st.retries := by
  by_cases h : stripLU st = stripLU { st with phase := p, reason := r, message := m } <;>
    simp [SetPhase, Patch, h]

theorem setProgress_retries (now : Int) (st : LTRStatus) (cp : Bool)
    (cur tot : Option Int) :
    (SetProgress now st cp cur tot).1.retries = st.retries := by
  by_cases h : stripLU st = stripLU { st with progress := some ⟨cp,
      match cur, tot with
      | some c, some t => calcPercent c t
      | _, _ => 0⟩ } <;>
    simp [SetProgress, Patch, h]

theorem setTrustInfo_retries (now : Int) (st : LTRStatus)
    (bs : Option String) (cfp pfp : String) :
    (SetTrustInfo now st bs cfp pfp).1.retries = st.retries := by
  by_cases h : stripLU st = stripLU { st with trust := some ⟨bs, cfp, pfp⟩ } <;>
    simp [SetTrustInfo, Patch, h]

theorem setPhase_fields (now : Int) (st : LTRStatus) (p r m : Option String) :
    (SetPhase now st p r m).1.phase = p ∧
    (SetPhase now st p r m).1.reason = r ∧
    (SetPhase now st p r m).1.message = m := by
  by_cases h : stripLU st = stripLU { st with phase := p, reason := r, message := m }
  · have hp := congrArg LTRStatus.phase h
    have hr := congrArg LTRStatus.reason h
    have hm := congrArg LTRStatus.message h
    simp only [stripLU] at hp hr hm
    simp [SetPhase, Patch, h, hp, hr, hm]
  · simp [SetPhase, Patch, h]

theorem markFailed_fields (now : Int) (st : LTRStatus) (reason msg : String) :
    (MarkFailed now st reason msg).1.phase = some "Failed" ∧
    (MarkFailed now st reason msg).1.reason = some reason ∧
    (MarkFailed now st reason msg).1.message = some msg := by
  by_cases h : stripLU st =
      stripLU { st with phase := some "Failed", reason := some reason,
                        message := some msg, completionTime := some now }
  · have hp := congrArg LTRStatus.phase h
    have hr := congrArg LTRStatus.reason h
    have hm := congrArg LTRStatus.message h
    simp only [stripLU] at hp hr hm
    simp [MarkFailed, Patch, h, hp, hr, hm]
  · simp [MarkFailed, Patch, h]

theorem setPhase_cursor (now : Int) (st : LTRStatus)
    (p r m : Option String) : (SetPhase now st p r m).1.cursor = st.cursor := by
  by_cases h : stripLU st = stripLU { st with phase := p, reason := r, message := m } <;>
    simp [SetPhase, Patch, h]

theorem setProgress_cursor (now : Int) (st : LTRStatus) (cp : Bool)
    (cur tot : Option Int) :
    (SetProgress now st cp cur tot).1.cursor = st.cursor := by
  by_cases h : stripLU st = stripLU { st with progress := some ⟨cp,
      match cur, tot with
      | some c, some t => calcPercent c t
      | _, _ => 0⟩ } <;>
    simp [SetProgress, Patch, h]

theorem setTrustInfo_cursor (now : Int) (st : LTRStatus)
    (bs : Option String) (cfp pfp : String) :
    (SetTrustInfo now st bs cfp pfp).1.cursor = st.cursor := by
  by_cases h : stripLU st = stripLU { st with trust := some ⟨bs, cfp, pfp⟩ } <;>
    simp [SetTrustInfo, Patch, h]

theorem setProgress_phase (now : Int) (st : LTRStatus) (cp : Bool)
    (cur tot : Option Int) :
    (SetProgress now st cp cur tot).1.phase = st.phase := by
  by_cases h : stripLU st = stripLU { st with progress := some ⟨cp,
      match cur, tot with
      | some c, some t => calcPercent c t
      | _, _ => 0⟩ } <;>
    simp [SetProgress, Patch, h]

theorem setTrustInfo_phase (now : Int) (st : LTRStatus)
    (bs : Option String) (cfp pfp : String) :
    (SetTrustInfo now st bs cfp pfp).1.phase = st.phase := by
  by_cases h : stripLU st = stripLU { st with trust := some ⟨bs, cfp, pfp⟩ } <;>
    simp [SetTrustInfo, Patch, h]

/-! ### C8: the max-retries guard -/

/-- C8: when the persisted retry count strictly exceeds
`protection.maxRolloutFailures` at the start of a rotation (overlap
detected, not a dry run), the reconcile emits a `MaxRetriesExceeded`
warning event, sets phase Failed with the `ReasonMaxRetriesExceeded`
reason value, requeues after exactly one minute, and performs no
rotation step. -/
theorem maxRetries_aborts (now : Int) (env : ReconcileEnv) (spec : LTRSpec)
    (st0 : LTRStatus) (sr : SecretResult) (r : RetryStatus)
    (htrig : spec.trigger = ⟨false, true⟩)
    (hens : env.ensureTrustSecrets = .ok sr)
    (hdiv : sr.diverged = true)
    (hdry : spec.dryRun = false)
    (hret : st0.retries = some r)
    (hcount : r.count > spec.protection.maxRolloutFailures) :
    (Reconcile now env spec st0).status.phase = some "Failed" ∧
    (Reconcile now env spec st0).status.reason =
      some "ReasonMaxRetriesExceeded" ∧
    (Reconcile now env spec st0).events =
      [⟨"Warning", "MaxRetriesExceeded",
        "max retry limit reached (" ++ toString r.count ++ " > " ++
          toString spec.protection.maxRolloutFailures ++
          "); stopping rollout"⟩] ∧
    (Reconcile now env spec st0).result = .ok 60 ∧
    (Reconcile now env spec st0).actions = [] := by
  have hr1 : (reconcileHead now st0).retries = some r := by
    rw [reconcileHead, setProgress_retries, setPhase_retries, hret]
  have hb : triggerBranch now env spec (reconcileHead now st0) =
      .ok ((SetTrustInfo now (reconcileHead now st0) (some "overlap")
        sr.currentFP sr.previousFP).1, "overlap") := by
    simp [triggerBranch, htrig, hens, hdiv]
  have hr2 : (SetTrustInfo now (reconcileHead now st0) (some "overlap")
      sr.currentFP sr.previousFP).1.retries = some r := by
    rw [setTrustInfo_retries, hr1]
  have hrec : Reconcile now env spec st0 =
      afterTrigger now env spec
        ((SetTrustInfo now (reconcileHead now st0) (some "overlap")
          sr.currentFP sr.previousFP).1) "overlap" := by
    simp only [Reconcile, hb]
  rw [hrec]
  have hat : afterTrigger now env spec
      ((SetTrustInfo now (reconcileHead now st0) (some "overlap")
        sr.currentFP sr.previousFP).1) "overlap" =
      { status := (SetPhase now
          ((SetTrustInfo now (reconcileHead now st0) (some "overlap")
            sr.currentFP sr.previousFP).1)
          (some "Failed") (some "ReasonMaxRetriesExceeded")
          (some ("max retry limit reached (" ++ toString r.count ++ " > " ++
            toString spec.protection.maxRolloutFailures ++
            "); stopping rollout"))).1,
        events := [⟨"Warning", "MaxRetriesExceeded",
          "max retry limit reached (" ++ toString r.count ++ " > " ++
            toString spec.protection.maxRolloutFailures ++
            "); stopping rollout"⟩],
        actions := [], result := .ok 60 } := by
    simp [afterTrigger, hdry, hr2, hcount]
  rw [hat]
  exact ⟨(setPhase_fields _ _ _ _ _).1, (setPhase_fields _ _ _ _ _).2.1,
    rfl, rfl, rfl⟩

/-! ### C10: the ConfigMap-trigger fingerprint guard -/

/-- C10: with only the ConfigMap-change trigger enabled, a bundle the
inspector accepts with three or more fingerprints (every multi-cert
bundle is classified `overlap`, so this is any bundle with three or
more certificates) makes the reconcile return the error "more than 2
or 0 fingerprints found in config map" before any rotation step runs. -/
theorem cm_trigger_three_fps_errors (now : Int) (env : ReconcileEnv)
    (spec : LTRSpec) (st0 : LTRStatus) (r3 : CMResult)
    (htrig : spec.trigger = ⟨true, false⟩)
    (hload : LoadAndInspectCMBundle env.prims env.configMaps
      spec.linkerd.ns spec.linkerd.trustRootsConfigMap = .ok r3)
    (hfps : 3 ≤ r3.fps.length) :
    (Reconcile now env spec st0).result =
      .error "more than 2 or 0 fingerprints found in config map" ∧
    (Reconcile now env spec st0).actions = [] ∧
    r3.state = "overlap" := by
  obtain ⟨certs, -, rfl, -⟩ := load_ok_shape _ _ _ _ _ hload
  have h3 : 3 ≤ (sortListBy strLe
      (certs.map (fun c => fingerprintHex env.prims.sha256 c.raw))).length :=
    hfps
  have hstate : (if certs.length = 1 then "single" else "overlap")
      = "overlap" := by
    rw [sortListBy_length, List.length_map] at h3
    have : certs.length ≠ 1 := by omega
    simp [this]
  have hb : triggerBranch now env spec (reconcileHead now st0) =
      .error "more than 2 or 0 fingerprints found in config map" := by
    rcases hfl : sortListBy strLe
        (certs.map (fun c => fingerprintHex env.prims.sha256 c.raw)) with
      _ | ⟨a, _ | ⟨b, _ | ⟨c, rest⟩⟩⟩
    · rw [hfl] at h3; simp at h3
    · rw [hfl] at h3; simp at h3
    · rw [hfl] at h3; simp at h3
    · simp [triggerBranch, htrig, hload, hfl]
  refine ⟨?_, ?_, hstate⟩ <;> simp only [Reconcile, hb]

/-! ### C7: configuration errors and the Failed phase -/

/-- A trivial oracle environment for concrete reconcile runs. -/
def cEnvBase : ReconcileEnv :=
  { prims := c6prims, cluster := c4cluster, configMaps := c6getCM,
    ensureTrustSecrets := .ok { diverged := true },
    deleteSecretErr := fun _ => none,
    cpSelectErr := none, cpLoopErr := none,
    step := ⟨fun _ => none, fun _ => none, fun _ => none⟩,
    sha1hex := fun _ => "da39a3ee5e6b4b0d3255bfef95601890afd80709",
    renderDryRun := fun _ => "" }

/-- A spec with no trigger enabled. -/
def c7spec : LTRSpec :=
  { linkerd := ⟨"linkerd", "linkerd-identity-trust-roots", "cur", "prev", false⟩,
    trigger := ⟨false, false⟩, selector := c4sel,
    protection := { maxRolloutFailures := 2 }, dryRun := false }

/-- C7 is false as stated: the no-trigger configuration error aborts
the reconcile with an error, but the status phase stays Idle — no
mutator sets phase Failed on that path. -/
theorem c7_no_trigger_leaves_idle :
    (Reconcile 0 cEnvBase c7spec {}).result =
      .error ("no rotation trigger enabled: at least one of " ++
        "trigger.onConfigMapChange or trigger.requireSecretsDivergence " ++
        "must be true") ∧
    (Reconcile 0 cEnvBase c7spec {}).status.phase = some "Idle" :=
  ⟨rfl, rfl⟩

theorem cpStartWrites_cursor (now : Int) (st : LTRStatus) :
    (cpStartWrites now st).cursor = st.cursor := by
  rw [cpStartWrites, setProgress_cursor, setPhase_cursor]

theorem cpFinishWrites_cursor (now : Int) (st : LTRStatus) :
    (cpFinishWrites now st).cursor = st.cursor := by
  rw [cpFinishWrites, setPhase_cursor, setProgress_cursor]

theorem detectingWrite_cursor (now : Int) (spec : LTRSpec) (st : LTRStatus) :
    (detectingWrite now spec st).cursor = st.cursor := by
  rw [detectingWrite, setPhase_cursor]

theorem rlcp_ok (now : Int) (env : ReconcileEnv) (st : LTRStatus)
    (hcp1 : env.cpSelectErr = none) (hcp2 : env.cpLoopErr = none) :
    RestartLinkerdControlPlane now env st =
      (cpFinishWrites now (cpStartWrites now st), none) := by
  simp [RestartLinkerdControlPlane, hcp1, hcp2]

theorem restartDP_headCRBump (now : Int) (env : ReconcileEnv)
    (spec : LTRSpec) (st : LTRStatus) (w : WorkItem) (ws : List WorkItem)
    (hsel : SelectLinkerdDataPlane env.cluster spec.selector = .ok (w :: ws))
    (hkind : w.dryRun.kind = .cr)
    (hbump : w.bumpKey = "" ∨ w.bumpValue = "")
    (hcur : st.cursor = none) :
    ∃ sx, RestartLinkerdDataPlane now env spec st = (sx,
      some "BumpAnnotationKey, BumpAnnotationValue is required for custom resources") := by
  have hitem : itemErr env.step spec.protection.runLinkerdCheckProxy w =
      some "BumpAnnotationKey, BumpAnnotationValue is required for custom resources" := by
    rcases hbump with h | h <;> simp [itemErr, hkind, h]
  have hcurA : (SetPhase now st (some "RollingDP")
      (some "DataPlaneBatchRestarting")
      (some "Starting rollout restart Linkerd data plane")).1.cursor = none := by
    rw [setPhase_cursor, hcur]
  have h2 : (RestartLinkerdDataPlane now env spec st).2 =
      some "BumpAnnotationKey, BumpAnnotationValue is required for custom resources" := by
    simp only [RestartLinkerdDataPlane, hsel, dataPlaneStart, hcurA,
      Int.toNat_zero, List.drop_zero, runQueue, hitem]
  exact ⟨(RestartLinkerdDataPlane now env spec st).1, by rw [← h2]⟩

theorem continueRotation_dp_error (now : Int) (env : ReconcileEnv)
    (spec : LTRSpec) (events : List EventRec) (st sx : LTRStatus) (e : String)
    (hdel : env.deleteSecretErr "linkerd-identity-issuer" = none)
    (hcp1 : env.cpSelectErr = none) (hcp2 : env.cpLoopErr = none)
    (hdp : RestartLinkerdDataPlane now env spec
      (cpFinishWrites now (cpStartWrites now (detectingWrite now spec st))) =
      (sx, some e)) :
    continueRotation now env spec events st =
      { status := (MarkFailed now sx "RotationFailed" e).1, events := events,
        actions := [.deleteSecret "linkerd-identity-issuer",
          .restartControlPlane, .dataPlaneRollout],
        result := .error e } := by
  have hcp := rlcp_ok now env (detectingWrite now spec st) hcp1 hcp2
  simp only [continueRotation, hdel, hcp, hdp, List.cons_append,
    List.nil_append]

/-- C7 (amended): every configuration error is fatal for the
reconcile, but only the ones raised on the rollout path mark the
resource Failed.  With the secrets-diff trigger reporting divergence:
(1) on the rollout path (dry run off) a `SelectLinkerdDataPlane` error
— empty allowedNamespaces or missing GVK — and (2) a custom-resource
item at the head of the plan lacking its bump annotation (the
ConfigurationError of the data-plane loop) both end with phase Failed,
reason RotationFailed and the error text as message; (3) the same
selection error on the dry-run path only returns the error and leaves
the phase Idle (as does the no-trigger error, see the
counterexample). -/
theorem rollout_config_error_marks_failed (now : Int) (env : ReconcileEnv)
    (spec : LTRSpec) (st0 : LTRStatus) (sr : SecretResult)
    (htrig : spec.trigger = ⟨false, true⟩)
    (hens : env.ensureTrustSecrets = .ok sr)
    (hdiv : sr.diverged = true)
    (hret : st0.retries = none)
    (hdel : env.deleteSecretErr "linkerd-identity-issuer" = none)
    (hcp1 : env.cpSelectErr = none)
    (hcp2 : env.cpLoopErr = none) :
    (∀ e, spec.dryRun = false →
      SelectLinkerdDataPlane env.cluster spec.selector = .error e →
      (Reconcile now env spec st0).result = .error e ∧
      (Reconcile now env spec st0).status.phase = some "Failed" ∧
      (Reconcile now env spec st0).status.reason = some "RotationFailed" ∧
      (Reconcile now env spec st0).status.message = some e) ∧
    (∀ w ws, spec.dryRun = false → st0.cursor = none →
      SelectLinkerdDataPlane env.cluster spec.selector = .ok (w :: ws) →
      w.dryRun.kind = .cr → w.bumpKey = "" ∨ w.bumpValue = "" →
      (Reconcile now env spec st0).result =
        .error "BumpAnnotationKey, BumpAnnotationValue is required for custom resources" ∧
      (Reconcile now env spec st0).status.phase = some "Failed" ∧
      (Reconcile now env spec st0).status.reason = some "RotationFailed" ∧
      (Reconcile now env spec st0).status.message =
        some "BumpAnnotationKey, BumpAnnotationValue is required for custom resources") ∧
    (∀ e, spec.dryRun = true →
      SelectLinkerdDataPlane env.cluster spec.selector = .error e →
      (Reconcile now env spec st0).result = .error e ∧
      (Reconcile now env spec st0).status.phase = some "Idle") := by
  have hb : triggerBranch now env spec (reconcileHead now st0) =
      .ok ((SetTrustInfo now (reconcileHead now st0) (some "overlap")
        sr.currentFP sr.previousFP).1, "overlap") := by
    simp [triggerBranch, htrig, hens, hdiv]
  have hret2 : (SetTrustInfo now (reconcileHead now st0) (some "overlap")
      sr.currentFP sr.previousFP).1.retries = none := by
    rw [setTrustInfo_retries, reconcileHead, setProgress_retries,
      setPhase_retries, hret]
  have hrec : Reconcile now env spec st0 =
      afterTrigger now env spec
        ((SetTrustInfo now (reconcileHead now st0) (some "overlap")
          sr.currentFP sr.previousFP).1) "overlap" := by
    simp only [Reconcile, hb]
  refine ⟨?_, ?_, ?_⟩
  · intro e hdry hsel
    rw [hrec]
    simp only [afterTrigger, hdry, hret2, Bool.false_eq_true, if_false,
      reduceIte]
    simp only [continueRotation, hdel, RestartLinkerdControlPlane, hcp1, hcp2,
      RestartLinkerdDataPlane, hsel]
    refine ⟨?_, ?_, ?_, ?_⟩ <;>
      first
      | rfl
      | trivial
      | exact (markFailed_fields _ _ _ _).1
      | exact (markFailed_fields _ _ _ _).2.1
      | exact (markFailed_fields _ _ _ _).2.2
  · intro w ws hdry hcur hsel hkind hbump
    have hcur2 : (SetTrustInfo now (reconcileHead now st0) (some "overlap")
        sr.currentFP sr.previousFP).1.cursor = none := by
      rw [setTrustInfo_cursor, reconcileHead, setProgress_cursor,
        setPhase_cursor, hcur]
    have hcur3 : (cpFinishWrites now (cpStartWrites now (detectingWrite now
        spec ((SetTrustInfo now (reconcileHead now st0) (some "overlap")
          sr.currentFP sr.previousFP).1)))).cursor = none := by
      rw [cpFinishWrites_cursor, cpStartWrites_cursor, detectingWrite_cursor,
        hcur2]
    obtain ⟨sx, hdp⟩ := restartDP_headCRBump now env spec _ w ws hsel hkind
      hbump hcur3
    have hat : afterTrigger now env spec
        ((SetTrustInfo now (reconcileHead now st0) (some "overlap")
          sr.currentFP sr.previousFP).1) "overlap" =
        continueRotation now env spec []
          ((SetTrustInfo now (reconcileHead now st0) (some "overlap")
            sr.currentFP sr.previousFP).1) := by
      simp only [afterTrigger, hdry, hret2, Bool.false_eq_true, if_false,
        reduceIte]
    rw [hrec, hat,
      continueRotation_dp_error now env spec [] _ sx _ hdel hcp1 hcp2 hdp]
    refine ⟨?_, ?_, ?_, ?_⟩
    · rfl
    · exact (markFailed_fields _ _ _ _).1
    · exact (markFailed_fields _ _ _ _).2.1
    · exact (markFailed_fields _ _ _ _).2.2
  · intro e hdry hsel
    have hphase2 : (SetTrustInfo now (reconcileHead now st0) (some "overlap")
        sr.currentFP sr.previousFP).1.phase = some "Idle" := by
      rw [setTrustInfo_phase, reconcileHead, setProgress_phase]
      exact (setPhase_fields now st0 (some "Idle") (some "")
        (some "Starting to watch for changes to the Linkerd trust anchor certificate")).1
    rw [hrec]
    simp only [afterTrigger, hdry, reduceIte, hsel]
    exact ⟨trivial, hphase2⟩

/-- Spec for the C8 witness: secrets-diff trigger, two allowed
failures. -/
def c8spec : LTRSpec :=
  { linkerd := ⟨"linkerd", "linkerd-identity-trust-roots", "cur", "prev", false⟩,
    trigger := ⟨false, true⟩, selector := c4sel,
    protection := { maxRolloutFailures := 2 }, dryRun := false }

/-- Status for the C8 witness: three recorded failures. -/
def c8st : LTRStatus := { retries := some ⟨3, "boom", none, some 0⟩ }

/-- Witness for C8: with `maxRolloutFailures = 2` and a third recorded
failure, the reconcile aborts: phase Failed, requeue after one minute,
no rotation action. -/
theorem maxRetries_aborts_witness :
    (Reconcile 0 cEnvBase c8spec c8st).status.phase = some "Failed" ∧
    (Reconcile 0 cEnvBase c8spec c8st).result = .ok 60 ∧
    (Reconcile 0 cEnvBase c8spec c8st).actions = [] :=
  ⟨(maxRetries_aborts 0 cEnvBase c8spec c8st { diverged := true }
      ⟨3, "boom", none, some 0⟩ rfl rfl rfl rfl rfl (by decide)).1,
   (maxRetries_aborts 0 cEnvBase c8spec c8st { diverged := true }
      ⟨3, "boom", none, some 0⟩ rfl rfl rfl rfl rfl (by decide)).2.2.2.1,
   (maxRetries_aborts 0 cEnvBase c8spec c8st { diverged := true }
      ⟨3, "boom", none, some 0⟩ rfl rfl rfl rfl rfl (by decide)).2.2.2.2⟩

/-- Spec for the C7 witness: the Deployment scope has an empty
namespace whitelist, a configuration error. -/
def c7wspec : LTRSpec :=
  { linkerd := ⟨"linkerd", "linkerd-identity-trust-roots", "cur", "prev", false⟩,
    trigger := ⟨false, true⟩,
    selector := ⟨"linkerd.io/inject", "enabled",
      [⟨"Deployment", [], "", "", "", "", none⟩]⟩,
    protection := { maxRolloutFailures := 2 }, dryRun := false }

/-- The same misconfigured spec with the dry run enabled. -/
def c7drySpec : LTRSpec := { c7wspec with dryRun := true }

/-- A custom resource whose pod template carries the inject
annotation. -/
def c7crObj : CRObj :=
  { ns := "nsA", name := "kafka",
    specTemplateAnnos := some [("linkerd.io/inject", "enabled")] }

/-- A cluster listing exactly that custom resource. -/
def c7crCluster : Cluster :=
  { deployments := fun _ => [], statefulSets := fun _ => [],
    daemonSets := fun _ => [],
    crs := fun g v k ns =>
      if g = "kafka.strimzi.io" ∧ v = "v1beta2" ∧ k = "Kafka" ∧ ns = "nsA"
      then [c7crObj] else [] }

/-- Spec for the C7 witness second clause: a CustomResource scope with
no bump annotation configured. -/
def c7crSpec : LTRSpec :=
  { linkerd := ⟨"linkerd", "linkerd-identity-trust-roots", "cur", "prev", false⟩,
    trigger := ⟨false, true⟩,
    selector := ⟨"linkerd.io/inject", "enabled",
      [⟨"CustomResource", ["nsA"], "", "kafka.strimzi.io", "Kafka", "v1beta2",
        none⟩]⟩,
    protection := { maxRolloutFailures := 2 }, dryRun := false }

/-- The environment over that cluster. -/
def c7crEnv : ReconcileEnv := { cEnvBase with cluster := c7crCluster }

/-- The single work item the plan builder emits for `c7crSpec`: a CR
with an empty bump pair. -/
def c7crItem : WorkItem :=
  { dryRun := ⟨.cr, "nsA", "kafka", "rolloutRestart"⟩, cr := some c7crObj }

/-- Witness for the amended C7 at concrete inputs: an
empty-allowedNamespaces scope fails the reconcile with phase Failed;
a custom-resource plan whose head item has no bump annotation fails
with the ConfigurationError text and phase Failed; the same selection
error under the dry run only returns the error and the phase stays
Idle. -/
theorem rollout_config_error_marks_failed_witness :
    ((Reconcile 0 cEnvBase c7wspec ({} : LTRStatus)).result =
        .error "targets[Deployment]: allowedNamespaces is required" ∧
      (Reconcile 0 cEnvBase c7wspec ({} : LTRStatus)).status.phase =
        some "Failed") ∧
    ((Reconcile 0 c7crEnv c7crSpec ({} : LTRStatus)).result =
        .error "BumpAnnotationKey, BumpAnnotationValue is required for custom resources" ∧
      (Reconcile 0 c7crEnv c7crSpec ({} : LTRStatus)).status.phase =
        some "Failed") ∧
    ((Reconcile 0 cEnvBase c7drySpec ({} : LTRStatus)).result =
        .error "targets[Deployment]: allowedNamespaces is required" ∧
      (Reconcile 0 cEnvBase c7drySpec ({} : LTRStatus)).status.phase =
        some "Idle") :=
  ⟨⟨((rollout_config_error_marks_failed 0 cEnvBase c7wspec {}
        { diverged := true } rfl rfl rfl rfl rfl rfl rfl).1
        "targets[Deployment]: allowedNamespaces is required" rfl rfl).1,
    ((rollout_config_error_marks_failed 0 cEnvBase c7wspec {}
        { diverged := true } rfl rfl rfl rfl rfl rfl rfl).1
        "targets[Deployment]: allowedNamespaces is required" rfl rfl).2.1⟩,
   ⟨((rollout_config_error_marks_failed 0 c7crEnv c7crSpec {}
        { diverged := true } rfl rfl rfl rfl rfl rfl rfl).2.1
        c7crItem [] rfl rfl rfl rfl (Or.inl rfl)).1,
    ((rollout_config_error_marks_failed 0 c7crEnv c7crSpec {}
        { diverged := true } rfl rfl rfl rfl rfl rfl rfl).2.1
        c7crItem [] rfl rfl rfl rfl (Or.inl rfl)).2.1⟩,
   ⟨((rollout_config_error_marks_failed 0 cEnvBase c7drySpec {}
        { diverged := true } rfl rfl rfl rfl rfl rfl rfl).2.2
        "targets[Deployment]: allowedNamespaces is required" rfl rfl).1,
    ((rollout_config_error_marks_failed 0 cEnvBase c7drySpec {}
        { diverged := true } rfl rfl rfl rfl rfl rfl rfl).2.2
        "targets[Deployment]: allowedNamespaces is required" rfl rfl).2⟩⟩

/-- Primitives for the C10 witness: a three-certificate bundle. -/
def c10prims : InspectPrims :=
  { pemDecodeAll := fun _ =>
      [⟨"CERTIFICATE", [1]⟩, ⟨"CERTIFICATE", [2]⟩, ⟨"CERTIFICATE", [3]⟩],
    parseX509 := fun bytes => some ⟨bytes⟩,
    sha256 := fun der => der }

/-- Environment for the C10 witness. -/
def c10env : ReconcileEnv := { cEnvBase with prims := c10prims }

/-- Spec for the C10 witness: ConfigMap trigger only. -/
def c10spec : LTRSpec :=
  { linkerd := ⟨"linkerd", "linkerd-identity-trust-roots", "cur", "prev", false⟩,
    trigger := ⟨true, false⟩, selector := c4sel,
    protection := { maxRolloutFailures := 2 }, dryRun := false }

/-- The inspector result on the C10 witness bundle. -/
def c10result : CMResult :=
  ⟨[⟨[1]⟩, ⟨[2]⟩, ⟨[3]⟩], ["01", "02", "03"], "overlap"⟩

/-- Witness for C10 at a concrete three-anchor bundle. -/
theorem cm_trigger_three_fps_errors_witness :
    (Reconcile 0 c10env c10spec {}).result =
      .error "more than 2 or 0 fingerprints found in config map" ∧
    (Reconcile 0 c10env c10spec {}).actions = [] :=
  ⟨(cm_trigger_three_fps_errors 0 c10env c10spec {} c10result
      rfl rfl (by decide)).1,
   (cm_trigger_three_fps_errors 0 c10env c10spec {} c10result
      rfl rfl (by decide)).2.1⟩

/-! ## The manual StatefulSet restart (`restartStatefulSetByDelete`,
part_000 lines 188-268, and `podOrdinal`/`podReady` from helpers.go) -/

/-- A pod as far as the restart path reads it. -/
structure Pod where
  ns : String
  name : String
  labels : List (String × String) := []
  phase : String := ""
  conditions : List (String × String) := []
  deletionTimestamp : Option Int := none
deriving DecidableEq, Repr

/-- `podReady`: a true Ready condition exists. -/
def podReady (p : Pod) : Bool :=
  p.conditions.any (fun c => decide (c.1 = "Ready") && decide (c.2 = "True"))

/-- The characters after the last `-`, if any. -/
def afterLastDash : List Char → Option (List Char)
  | [] => none
  | ch :: cs =>
      match afterLastDash cs with
      | some r => some r
      | none => if ch = '-' then some cs else none

/-- Leading decimal digits, `none` when there are none. -/
def parseDigits (cs : List Char) : Option Nat :=
  let ds := cs.takeWhile (fun ch => ch.isDigit)
  if ds.isEmpty then none
  else some (ds.foldl (fun acc ch => acc * 10 + (ch.toNat - 48)) 0)

/-- `fmt.Sscanf` with a single `%d` verb: optional leading spaces and
sign, then digits. -/
def parseGoInt (cs : List Char) : Option Int :=
  match cs.dropWhile isSpaceChar with
  | '-' :: rest => (parseDigits rest).map (fun n => -(n : Int))
  | '+' :: rest => (parseDigits rest).map (fun n => (n : Int))
  | other => (parseDigits other).map (fun n => (n : Int))

/-- `podOrdinal` (helpers.go lines 77-88): the integer parsed from the
suffix after the last `-`; `-1` when there is no dash or no number. -/
def podOrdinal (name : String) : Int :=
  match afterLastDash name.data with
  | none => -1
  | some suffix =>
      match parseGoInt suffix with
      | some n => n
      | none => -1

/-- Label-selector matching (`matchLabels` semantics). -/
def selectorMatches (sel : List (String × String)) (p : Pod) : Bool :=
  sel.all (fun kv =>
    match lookupStr p.labels kv.1 with
    | some v => decide (v = kv.2)
    | none => false)

/-- The readiness predicate of `deletePodAndWaitSameNameReady`: not
terminating, phase Running, Ready condition true. -/
def podRecreatedReady (cur : Pod) : Bool :=
  decide (cur.deletionTimestamp = none) && decide (cur.phase = "Running") &&
    podReady cur

/-- One observation of the polled pod. -/
inductive PollRes where
  | notFound
  | apiErr (msg : String)
  | found (p : Pod)
deriving DecidableEq, Repr

/-- The pod-level effects of the manual restart. -/
inductive PodAction where
  | deletePod (ns name propagation : String) (graceSeconds : Option Int)
  | waitReady (name : String) (pollIntervalSecs timeoutSecs : Nat)
deriving DecidableEq, Repr

/-- `rolloutPollInterval` in seconds. -/
def rolloutPollIntervalSecs : Nat := 2

/-- The poll loop of `deletePodAndWaitSameNameReady`: every tick, get
the pod by name; not-found keeps polling, an API error aborts, and a
recreated Running+Ready pod with no deletion timestamp succeeds; the
fuel is the number of ticks before the deadline. -/
def waitSameNameReady (obs : Nat → PollRes) : Nat → Nat → Except String Unit
  | _, 0 => .error "timeout waiting pod to be Ready after delete"
  | i, fuel + 1 =>
      match obs i with
      | .notFound => waitSameNameReady obs (i + 1) fuel
      | .apiErr e => .error e
      | .found cur =>
          if podRecreatedReady cur then .ok ()
          else waitSameNameReady obs (i + 1) fuel

/-- `deletePodAndWaitSameNameReady`: delete with background
propagation and the pod's own grace period (nil grace seconds), then
poll every 2 s until the same name is Running and Ready, within the
per-pod timeout. -/
def deletePodAndWaitSameNameReady (deleteErr : String → Option String)
    (obs : String → Nat → PollRes) (p : Pod) (timeoutSecs : Nat) :
    List PodAction × Except String Unit :=
  match deleteErr p.name with
  | some e =>
      ([.deletePod p.ns p.name "Background" none],
       .error ("delete pod " ++ p.ns ++ "/" ++ p.name ++ ": " ++ e))
  | none =>
      match waitSameNameReady (obs p.name) 0
          (timeoutSecs / rolloutPollIntervalSecs) with
      | .error e =>
          ([.deletePod p.ns p.name "Background" none,
            .waitReady p.name rolloutPollIntervalSecs timeoutSecs], .error e)
      | .ok _ =>
          ([.deletePod p.ns p.name "Background" none,
            .waitReady p.name rolloutPollIntervalSecs timeoutSecs], .ok ())

/-- Descending-ordinal comparator of the pod sort. -/
def podOrdinalDesc (a b : Pod) : Bool :=
  decide (podOrdinal b.name ≤ podOrdinal a.name)

/-- The pod loop of `restartStatefulSetByDelete`: process the sorted
pods one by one, aborting on the first failure. -/
def deletePodsInOrder (deleteErr : String → Option String)
    (obs : String → Nat → PollRes) (stsName : String)
    (timeoutSecs : Nat) : List Pod → List PodAction × Except String Unit
  | [] => ([], .ok ())
  | p :: ps =>
      match deletePodAndWaitSameNameReady deleteErr obs p timeoutSecs with
      | (acts, .error e) =>
          (acts, .error ("rolloutDelete " ++ p.ns ++ "/" ++ stsName ++
            " pod " ++ p.name ++ ": " ++ e))
      | (acts, .ok _) =>
          let rest := deletePodsInOrder deleteErr obs stsName timeoutSecs ps
          (acts ++ rest.1, rest.2)

/-- `restartStatefulSetByDelete`: list the pods by the stateful set's
label selector, sort descending by ordinal, delete one by one waiting
for each replacement. -/
def restartStatefulSetByDelete (deleteErr : String → Option String)
    (obs : String → Nat → PollRes) (podsInNs : List Pod) (sts : Workload)
    (timeoutSecs : Nat) : List PodAction × Except String Unit :=
  let pods := podsInNs.filter (selectorMatches sts.selector)
  if pods.isEmpty then ([], .ok ())
  else deletePodsInOrder deleteErr obs sts.name timeoutSecs
    (sortListBy podOrdinalDesc pods)

theorem waitSameNameReady_ok (obs1 : Nat → PollRes) :
    ∀ fuel i, waitSameNameReady obs1 i fuel = .ok () →
      ∃ j cur, i ≤ j ∧ j < i + fuel ∧ obs1 j = .found cur ∧
        podRecreatedReady cur = true := by
  intro fuel
  induction fuel with
  | zero => intro i h; simp [waitSameNameReady] at h
  | succ fuel ih =>
      intro i h
      rw [waitSameNameReady] at h
      cases hobs : obs1 i with
      | notFound =>
          rw [hobs] at h
          obtain ⟨j, cur, hij, hlt, hfound, hready⟩ := ih (i + 1) h
          exact ⟨j, cur, by omega, by omega, hfound, hready⟩
      | apiErr e => rw [hobs] at h; cases h
      | found cur =>
          rw [hobs] at h
          have h2 : (if podRecreatedReady cur = true then Except.ok ()
              else waitSameNameReady obs1 (i + 1) fuel) =
              (Except.ok () : Except String Unit) := h
          by_cases hr : podRecreatedReady cur = true
          · exact ⟨i, cur, le_refl i, by omega, hobs, hr⟩
          · rw [if_neg hr] at h2
            obtain ⟨j, cur2, hij, hlt, hfound, hready⟩ := ih (i + 1) h2
            exact ⟨j, cur2, by omega, by omega, hfound, hready⟩

theorem deletePodsInOrder_all_ok (deleteErr : String → Option String)
    (obs : String → Nat → PollRes) (stsName : String) (timeoutSecs : Nat) :
    ∀ l : List Pod,
      (∀ p ∈ l, deleteErr p.name = none ∧
        waitSameNameReady (obs p.name) 0
          (timeoutSecs / rolloutPollIntervalSecs) = .ok ()) →
      deletePodsInOrder deleteErr obs stsName timeoutSecs l =
        (l.flatMap (fun p =>
          [.deletePod p.ns p.name "Background" none,
           .waitReady p.name rolloutPollIntervalSecs timeoutSecs]), .ok ()) := by
  intro l
  induction l with
  | nil => intro _; rfl
  | cons p ps ih =>
      intro h
      have hp := h p (List.mem_cons_self p ps)
      have hstep : deletePodAndWaitSameNameReady deleteErr obs p timeoutSecs =
          ([.deletePod p.ns p.name "Background" none,
            .waitReady p.name rolloutPollIntervalSecs timeoutSecs], .ok ()) := by
        rw [deletePodAndWaitSameNameReady, hp.1, hp.2]
      rw [deletePodsInOrder, hstep,
        ih (fun q hq => h q (List.mem_cons_of_mem p hq))]
      simp

/-- C9: for a StatefulSet item with strategy rolloutDelete, the engine
enumerates the pods by the stateful set's label selector and deletes
them one by one in descending order of the numeric ordinal parsed from
the suffix after the last dash, each deletion using background
propagation and the pod's own grace period (nil grace seconds); after
each deletion it polls every 2 seconds (up to the per-item timeout)
and proceeds to the next pod only once a pod with the same name is
observed in phase Running with a true Ready condition and no deletion
timestamp. -/
theorem restartStatefulSetByDelete_spec (deleteErr : String → Option String)
    (obs : String → Nat → PollRes) (podsInNs : List Pod) (sts : Workload)
    (timeoutSecs : Nat) :
    (sortListBy podOrdinalDesc
        (podsInNs.filter (selectorMatches sts.selector))).Perm
      (podsInNs.filter (selectorMatches sts.selector)) ∧
    List.Pairwise (fun a b => podOrdinal b.name ≤ podOrdinal a.name)
      (sortListBy podOrdinalDesc
        (podsInNs.filter (selectorMatches sts.selector))) ∧
    ((∀ p ∈ sortListBy podOrdinalDesc
        (podsInNs.filter (selectorMatches sts.selector)),
        deleteErr p.name = none ∧
        waitSameNameReady (obs p.name) 0
          (timeoutSecs / rolloutPollIntervalSecs) = .ok ()) →
      restartStatefulSetByDelete deleteErr obs podsInNs sts timeoutSecs =
        ((sortListBy podOrdinalDesc
            (podsInNs.filter (selectorMatches sts.selector))).flatMap
          (fun p => [.deletePod p.ns p.name "Background" none,
                     .waitReady p.name rolloutPollIntervalSecs timeoutSecs]),
         .ok ())) ∧
    (∀ nm i fuel, waitSameNameReady (obs nm) i fuel = .ok () →
      ∃ j cur, i ≤ j ∧ j < i + fuel ∧ obs nm j = .found cur ∧
        cur.deletionTimestamp = none ∧ cur.phase = "Running" ∧
        podReady cur = true) := by
  refine ⟨sortListBy_perm _ _, ?_, ?_, ?_⟩
  · have h := sortListBy_pairwise podOrdinalDesc
      (fun a b hf => by
        simp only [podOrdinalDesc, decide_eq_false_iff_not] at hf
        simp only [podOrdinalDesc, decide_eq_true_eq]
        omega)
      (fun a b c h1 h2 => by
        simp only [podOrdinalDesc, decide_eq_true_eq] at h1 h2 ⊢
        omega)
      (podsInNs.filter (selectorMatches sts.selector))
    exact h.imp (fun hab => by
      simpa [podOrdinalDesc, decide_eq_true_eq] using hab)
  · intro h
    rw [restartStatefulSetByDelete]
    by_cases hemp : (podsInNs.filter (selectorMatches sts.selector)).isEmpty
    · rw [List.isEmpty_iff] at hemp
      simp [hemp, sortListBy]
    · rw [if_neg hemp]
      exact deletePodsInOrder_all_ok deleteErr obs sts.name timeoutSecs _ h
  · intro nm i fuel h
    obtain ⟨j, cur, hij, hlt, hfound, hready⟩ :=
      waitSameNameReady_ok (obs nm) fuel i h
    simp only [podRecreatedReady, Bool.and_eq_true, decide_eq_true_eq] at hready
    exact ⟨j, cur, hij, hlt, hfound, hready.1.1, hready.1.2, hready.2⟩

/-- Pods for the C9 witness: `s1-0`, `s1-1`, `s1-2` behind the
selector `app=s1`. -/
def c9pods : List Pod :=
  [{ ns := "ns1", name := "s1-0", labels := [("app", "s1")],
     phase := "Running", conditions := [("Ready", "True")] },
   { ns := "ns1", name := "s1-1", labels := [("app", "s1")],
     phase := "Running", conditions := [("Ready", "True")] },
   { ns := "ns1", name := "s1-2", labels := [("app", "s1")],
     phase := "Running", conditions := [("Ready", "True")] }]

/-- The stateful set of the C9 witness. -/
def c9sts : Workload := { ns := "ns1", name := "s1", selector := [("app", "s1")] }

/-- Observation oracle of the C9 witness: every poll finds the
replacement pod Running and Ready. -/
def c9obs : String → Nat → PollRes :=
  fun nm _ => .found { ns := "ns1", name := nm, phase := "Running",
                       conditions := [("Ready", "True")] }

/-- Witness for C9: the three pods are deleted in the order
`s1-2, s1-1, s1-0`, each delete followed by a successful same-name
readiness wait before the next delete. -/
theorem restartStatefulSetByDelete_spec_witness :
    restartStatefulSetByDelete (fun _ => none) c9obs c9pods c9sts 300 =
      ([.deletePod "ns1" "s1-2" "Background" none, .waitReady "s1-2" 2 300,
        .deletePod "ns1" "s1-1" "Background" none, .waitReady "s1-1" 2 300,
        .deletePod "ns1" "s1-0" "Background" none, .waitReady "s1-0" 2 300],
       .ok ()) := by
  have h := (restartStatefulSetByDelete_spec (fun _ => none) c9obs c9pods
    c9sts 300).2.2.1 (fun p _ => ⟨rfl, rfl⟩)
  rw [h]
  rfl

end LinkerdTrustRotator
